import Mathlib

/-!
Verification of the OU-XML to RST conversion engine
(`src/ou_xml_to_rst/__main__.py`).

The embedding models the element tree handed to the converter by lxml
(`Node`), the ambient run configuration (`Ctx`, holding the default
block/part path segments and the external MathML translator), and the
process-wide mutable state (`St`, holding the `DEFER_OUTPUT` queue and the
diagnostic messages printed for unrecognized kinds).  `processNode` is a
line-by-line translation of `process_node`; Python exceptions are modelled
as `Except.error`, and recursion is made total with a fuel parameter
(`.error "fuel"` is unreachable for any fuel larger than the tree depth).
-/

namespace OuXmlToRst

/-- Python truthiness of an optional string: `None` and `''` are falsy. -/
def truthy : Option String → Bool
  | some s => !s.data.isEmpty
  | none => false

/-- The string held by an optional, defaulting to the empty string. -/
def strVal : Option String → String
  | some s => s
  | none => ""

/-- Python f-string rendering of an optional string (`None` prints as `"None"`). -/
def pyStr : Option String → String
  | some s => s
  | none => "None"

/-- The trailing-text lines the inline branches append
(`if node.tail: buffer.append(node.tail)`). -/
def optTail (o : Option String) : List String := if truthy o then [strVal o] else []

/-- Suffix of a character list strictly after the last backslash; the whole
list when no backslash occurs.  Models the Python slice
`s[s.rfind(backslash) + 1:]`. -/
def afterLastBS : List Char → List Char
  | [] => []
  | c :: cs => if c == '\\' || cs.contains '\\' then afterLastBS cs else c :: cs

/-- String form of `afterLastBS`. -/
def afterLastBackslash (s : String) : String := ⟨afterLastBS s.data⟩

/-- Python string repetition `s * n`. -/
def strRepeat (s : String) (n : Nat) : String := String.join (List.replicate n s)

/-- `n` spaces (Python `' ' * n`), as used for list-item continuation padding. -/
def spacesN (n : Nat) : String := ⟨List.replicate n ' '⟩

/-- The whitespace characters stripped by Python `str.strip()` (ASCII range). -/
def isPyWS (c : Char) : Bool := c == ' ' || c == '\t' || c == '\n' || c == '\r'

/-- Python `str.strip()`: remove leading and trailing whitespace. -/
def pyStrip (s : String) : String :=
  ⟨(((s.data.dropWhile isPyWS).reverse).dropWhile isPyWS).reverse⟩

/-- Python `str.lower()` (the inputs in this program are ASCII). -/
def pyLower (s : String) : String := ⟨s.data.map Char.toLower⟩

/-- Python `s.startswith(pre)`. -/
def pyStartsWith (s pre : String) : Bool := pre.data.isPrefixOf s.data

/-- Python `s.endswith(' ')`, the only endswith the program uses. -/
def endsWithSpace (s : String) : Bool := s.data.getLast? == some ' '

/-- Python `c in s` for a single character. -/
def containsChar (s : String) (c : Char) : Bool := s.data.contains c

/-- Worker for `splitChar`: accumulates the current chunk in reverse. -/
def splitCharAux (c : Char) : List Char → List Char → List String
  | [], acc => [⟨acc.reverse⟩]
  | x :: xs, acc =>
    if x == c then (⟨acc.reverse⟩ : String) :: splitCharAux c xs []
    else splitCharAux c xs (x :: acc)

/-- Python `s.split(c)` for a one-character separator (empty chunks kept). -/
def splitChar (c : Char) (s : String) : List String := splitCharAux c s.data []

/-- Python `s.replace(a, rep)` for a one-character pattern,
scanning left to right. -/
def replace1 (a : Char) (rep : List Char) : List Char → List Char
  | [] => []
  | x :: xs => if x == a then rep ++ replace1 a rep xs else x :: replace1 a rep xs

/-- Python `s.replace(ab, rep)` for a two-character pattern, scanning left to
right over non-overlapping occurrences. -/
def replace2 (a b : Char) (rep : List Char) : List Char → List Char
  | [] => []
  | [x] => [x]
  | x :: y :: xs =>
    if x == a && y == b then rep ++ replace2 a b rep xs
    else x :: replace2 a b rep (y :: xs)

/-- Python `str.replace(' ', '')` on a string. -/
def removeSpaces (s : String) : String := ⟨replace1 ' ' [] s.data⟩

/-- The Equation branch's rewrite pipeline:
`.replace('\n', '').replace('\\[', '$$').replace('\\]', '$$').replace('\\', '\\\\')`. -/
def mathRewrite (s : String) : String :=
  ⟨replace1 '\\' ['\\', '\\']
    (replace2 '\\' ']' ['$', '$']
      (replace2 '\\' '[' ['$', '$']
        (replace1 '\n' [] s.data)))⟩

/-- Python `str(n)` for a natural number (digit recursion run on explicit
fuel, `n + 1` being always enough). -/
def natToStrAux : Nat → Nat → List Char
  | 0, _ => []
  | fuel+1, n =>
    if n < 10 then [Char.ofNat (48 + n)]
    else natToStrAux fuel (n / 10) ++ [Char.ofNat (48 + n % 10)]

/-- Python `str(n)`. -/
def natToStr (n : Nat) : String := ⟨natToStrAux (n + 1) n⟩

/-- An lxml element: tag, text, tail, attributes, children (in document order). -/
inductive Node : Type where
  | mk : String → Option String → Option String → List (String × String) → List Node → Node

def Node.tag : Node → String
  | .mk t _ _ _ _ => t

def Node.text : Node → Option String
  | .mk _ x _ _ _ => x

def Node.tail : Node → Option String
  | .mk _ _ x _ _ => x

def Node.attrs : Node → List (String × String)
  | .mk _ _ _ a _ => a

def Node.children : Node → List Node
  | .mk _ _ _ _ c => c

/-- `node.attrib[k]` as an optional value. -/
def Node.attr (n : Node) (k : String) : Option String :=
  (n.attrs.find? (fun p => p.1 == k)).map Prod.snd

/-- xpath `t` over the direct children: the children with the given tag. -/
def Node.childTagged (n : Node) (t : String) : List Node :=
  n.children.filter (fun c => c.tag == t)

/-- xpath `t/text()`: the text nodes of the children with the given tag.
An element with no text holds `none` and contributes no text node. -/
def Node.childTexts (n : Node) (t : String) : List String :=
  (n.childTagged t).filterMap Node.text

/-- xpath `Image/@src`: the src attributes of the Image children. -/
def Node.imageSrcs (n : Node) : List String :=
  (n.childTagged "Image").filterMap (fun c => c.attr "src")

/-- xpath `tbody/tr`: the tr children of the tbody children. -/
def Node.tbodyRows (n : Node) : List Node :=
  (n.childTagged "tbody").flatMap (fun b => b.childTagged "tr")

/-- xpath `th|td` over a row, in document order. -/
def Node.rowCells (r : Node) : List Node :=
  r.children.filter (fun c => c.tag == "th" || c.tag == "td")

/-- Whether a row has at least one `th` child (xpath `tr[th]`). -/
def Node.hasThChild (r : Node) : Bool :=
  r.children.any (fun c => c.tag == "th")

/-- Ambient run configuration: the `DEFAULT_BLOCK`/`DEFAULT_PART` path segments
set by `run_import`, and the external MathML translator (`MATH_XSLT` composed
with the byte decoding; `none` models a falsy translation result). -/
structure Ctx : Type where
  defaultBlock : String
  defaultPart : String
  translate : Node → Option String

/-- Process-wide mutable state: the `DEFER_OUTPUT` queue and the diagnostics
printed for unrecognized kinds. -/
structure St : Type where
  defer : List String
  diags : List String
deriving DecidableEq, Repr

/-- `fix_trailing_space`, acting on the (text, tail) pair of a node. -/
def fixPair (text tail : Option String) : Option String × Option String :=
  if truthy text && endsWithSpace (strVal text) then
    (some ((strVal text).dropRight 1),
     some (if truthy tail then " " ++ strVal tail else " "))
  else (text, tail)

/-- Sequentially convert a list of sibling nodes (`for child in ...:
buffer.extend(process_node(child, ...))`), threading the mutable state. -/
def runSeq (f : String → Node → String → St → Except String (List String × St))
    (ptag : String) (ns : List Node) (indent : String) (st : St) :
    Except String (List String × St) :=
  match ns with
  | [] => .ok ([], st)
  | n :: rest => do
    let (ls, st1) ← f ptag n indent st
    let (more, st2) ← runSeq f ptag rest indent st1
    .ok (ls ++ more, st2)

/-- The child loop of a text-less list item: the first child is converted with
the indent extended by the item marker, every later child with the indent
extended by marker-width spaces. -/
def runItems (f : String → Node → String → St → Except String (List String × St))
    (ptag : String) (ns : List Node) (indent itemTag : String) (first : Bool)
    (st : St) : Except String (List String × St) :=
  match ns with
  | [] => .ok ([], st)
  | n :: rest => do
    let ind := if first then indent ++ itemTag else indent ++ spacesN itemTag.length
    let (ls, st1) ← f ptag n ind st
    let (more, st2) ← runItems f ptag rest indent itemTag false st1
    .ok (ls ++ more, st2)

/-- The cell loop of a table row: each cell becomes one joined line, the first
cell of the row carrying the row bullet. -/
def runCells (f : String → Node → String → St → Except String (List String × St))
    (indent : String) (cells : List Node) (first : Bool) (st : St) :
    Except String (List String × St) :=
  match cells with
  | [] => .ok ([], st)
  | c :: rest => do
    let pre := if first then indent ++ "    * - " else indent ++ "      - "
    let (ls, st1) ← runSeq f c.tag c.children "" st
    let line := pre ++ (if truthy c.text then strVal c.text else "") ++ String.join ls
    let (more, st2) ← runCells f indent rest false st1
    .ok (line :: more, st2)

/-- The row loop of a table body. -/
def runRows (f : String → Node → String → St → Except String (List String × St))
    (indent : String) (rows : List Node) (st : St) :
    Except String (List String × St) :=
  match rows with
  | [] => .ok ([], st)
  | r :: rest => do
    let (ls, st1) ← runCells f indent r.rowCells true st
    let (more, st2) ← runRows f indent rest st1
    .ok (ls ++ more, st2)

/-- `process_node`, translated branch by branch.  `ptag` is the tag of the
node's parent (`node.getparent().tag`); every call made by the program has a
real parent.  Python exceptions become `Except.error`. -/
def processNode (ctx : Ctx) : Nat → String → Node → String → St →
    Except String (List String × St)
  | 0, _, _, _, _ => .error "fuel"
  | fuel+1, ptag, n, indent, st =>
    if n.tag == "Title" || n.tag == "Heading" then do
      let (ls, st1) ← runSeq (processNode ctx fuel) n.tag n.children "" st
      match n.text with
      | none => .error "TypeError: sequence item 0: expected str instance, NoneType found"
      | some t =>
        let titleText := pyStrip (t ++ String.join ls)
        let (hc, st2) :=
          if ptag == "Session" || ptag == "Section" then ("#", st1)
          else if ptag == "InternalSection" then ("=", st1)
          else if ptag == "SubSection" then ("-", st1)
          else if ptag == "Quote" then ("", st1)
          else ("", { st1 with diags := st1.diags ++ [ptag] })
        .ok ([titleText, strRepeat hc titleText.length, ""], st2)
    else if n.tag == "Paragraph" || n.tag == "Timing" then do
      let txt :=
        if truthy n.text then
          if n.tag == "Timing" then "*" ++ strVal n.text ++ "*" else strVal n.text
        else ""
      let (ls, st1) ← runSeq (processNode ctx fuel) n.tag n.children "" st
      .ok ([indent ++ txt ++ String.join ls, ""], st1)
    else if n.tag == "Box" then do
      let start : List String :=
        match n.childTexts "Heading" with
        | [] => []
        | h :: _ => [indent ++ ".. admonition:: " ++ h, ""]
      let (ls, st1) ← runSeq (processNode ctx fuel) n.tag
        (n.children.filter (fun c => c.tag != "Heading")) (indent ++ "    ") st
      let buf := start ++ ls
      match buf.getLast? with
      | none => .error "IndexError: list index out of range"
      | some last => .ok ((if last != "" then buf ++ [""] else buf), st1)
    else if n.tag == "StudyNote" then do
      let (ls, st1) ← runSeq (processNode ctx fuel) n.tag n.children (indent ++ "    ") st
      .ok ([indent ++ ".. note::", ""] ++ ls, st1)
    else if n.tag == "Image" then
      match n.attr "src" with
      | some src => .ok ([".. image:: " ++ afterLastBackslash src, ""], st)
      | none => .ok ([], st)
    else if n.tag == "Figure" then
      match n.imageSrcs with
      | [] => .ok ([], st)
      | src :: _ =>
        let buf := [indent ++ ".. figure:: " ++ afterLastBackslash src, ""]
        match n.childTagged "Caption" with
        | [] => .ok (buf, st)
        | cap :: _ =>
          if cap.children.isEmpty then
            let capLine := indent ++ "    " ++ (if truthy cap.text then strVal cap.text else "")
            .ok (buf ++ [capLine, ""], st)
          else do
            let _ ← runSeq (processNode ctx fuel) cap.tag cap.children "" st
            .error "TypeError: sequence item: expected str instance, list found"
    else if n.tag == "MediaContent" then
      match n.attr "src" with
      | none => .ok ([], st)
      | some src =>
        if pyStartsWith src "youtube:" then do
          let buf0 := [indent ++ ".. youtube:: " ++ src.drop 8, ""]
          let (dls, st1) ←
            match n.childTagged "Description" with
            | [] => pure ([], st)
            | d :: _ => processNode ctx fuel n.tag d (indent ++ "    ") st
          let (tls, st2) ←
            match n.childTagged "Transcript" with
            | [] => pure ([], st1)
            | tr :: _ => processNode ctx fuel n.tag tr (indent ++ "    ") st1
          .ok (buf0 ++ dls ++ tls, st2)
        else do
          let wline :=
            match n.attr "width" with
            | some w => [indent ++ "    :width: " ++ w]
            | none => []
          let hline :=
            match n.attr "height" with
            | some h => [indent ++ "    :height: " ++ h]
            | none => []
          let (cls, st1) ←
            match n.childTagged "Caption" with
            | [] => pure ([], st)
            | cap :: _ => runSeq (processNode ctx fuel) cap.tag cap.children indent st
          let buf := [indent ++ ".. iframe:: " ++ afterLastBackslash src] ++
            wline ++ hline ++ [""] ++ cls
          match buf.getLast? with
          | none => .error "IndexError: list index out of range"
          | some last => .ok ((if last != "" then buf ++ [""] else buf), st1)
    else if n.tag == "Description" then do
      let (ls, st1) ← runSeq (processNode ctx fuel) n.tag n.children (indent ++ "    ") st
      .ok ([indent ++ ".. description::", ""] ++ ls, st1)
    else if n.tag == "Transcript" then do
      let (ls, st1) ← runSeq (processNode ctx fuel) n.tag n.children (indent ++ "    ") st
      .ok ([indent ++ ".. transcript::", ""] ++ ls, st1)
    else if n.tag == "Activity" then
      match n.childTexts "Heading" with
      | [] => .ok ([], st)
      | h :: _ => do
        let (ls, st1) ← runSeq (processNode ctx fuel) n.tag
          (n.children.filter (fun c => c.tag != "Heading")) (indent ++ "    ") st
        .ok ([indent ++ ".. activity:: " ++ h, ""] ++ ls, st1)
    else if n.tag == "Question" then do
      let (ls, st1) ← runSeq (processNode ctx fuel) n.tag n.children indent st
      .ok (ls, st1)
    else if n.tag == "Answer" then do
      let (ls, st1) ← runSeq (processNode ctx fuel) n.tag n.children (indent ++ "    ") st
      .ok ([indent ++ ".. activity-answer::", ""] ++ ls, st1)
    else if n.tag == "Quote" then do
      let (ls, st1) ← runSeq (processNode ctx fuel) n.tag n.children (indent ++ "    ") st
      .ok (ls, st1)
    else if n.tag == "SourceReference" then do
      let t := if truthy n.text then strVal n.text else ""
      let (ls, st1) ← runSeq (processNode ctx fuel) n.tag n.children "" st
      .ok ([indent ++ "-- " ++ t ++ String.join ls, ""], st1)
    else if n.tag == "Reference" then
      if truthy n.text then do
        let t := strVal n.text
        let (ls, st1) ← runSeq (processNode ctx fuel) n.tag n.children "" st
        .ok ([".. [" ++ pyStrip t ++ "] " ++ t ++ String.join ls, ""], st1)
      else .ok ([], st)
    else if n.tag == "BulletedList" || n.tag == "BulletedSubsidiaryList" ||
        n.tag == "UnNumberedList" || n.tag == "UnNumberedSubsidiaryList" ||
        n.tag == "NumberedList" then do
      let (ls, st1) ← runSeq (processNode ctx fuel) n.tag n.children indent st
      match ls.getLast? with
      | none => .error "IndexError: list index out of range"
      | some last => .ok ((if last != "" then ls ++ [""] else ls), st1)
    else if n.tag == "ListItem" || n.tag == "SubListItem" then
      let itemTag := if ptag == "NumberedList" then "#. " else "* "
      if truthy n.text then do
        let (ls, st1) ← runSeq (processNode ctx fuel) n.tag n.children "" st
        .ok ([indent ++ itemTag ++ strVal n.text ++ String.join ls], st1)
      else
        runItems (processNode ctx fuel) n.tag n.children indent itemTag true st
    else if n.tag == "ComputerCode" then
      if truthy n.text && !(pyStrip (strVal n.text)).data.isEmpty && containsChar (strVal n.text) '\n' then
        let codeLines := (splitChar '\n' (strVal n.text)).map (fun l => indent ++ "    " ++ l)
        .ok ([String.intercalate "\n" ([indent ++ ".. sourcecode::", ""] ++ codeLines)], st)
      else
        let (tx, tl) := fixPair n.text n.tail
        .ok ((if truthy tx then ["``" ++ strVal tx ++ "``"] else []) ++ optTail tl, st)
    else if n.tag == "ComputerDisplay" then
      if truthy n.text && !(pyStrip (strVal n.text)).data.isEmpty && containsChar (strVal n.text) '\n' then
        let codeLines := (splitChar '\n' (strVal n.text)).map (fun l => indent ++ "    " ++ l)
        .ok ([String.intercalate "\n" ([indent ++ ".. sourcecode::", ""] ++ codeLines)], st)
      else if !(n.childTagged "Paragraph").isEmpty then do
        let (ls, st1) ← runSeq (processNode ctx fuel) n.tag n.children (indent ++ "    ") st
        .ok ([indent ++ ".. sourcecode::", ""] ++ ls, st1)
      else if truthy n.text then
        let (tx, tl) := fixPair n.text n.tail
        .ok (["``" ++ strVal tx ++ "``"] ++ optTail tl, st)
      else .ok (optTail n.tail, st)
    else if n.tag == "ComputerUI" then
      if truthy n.text && !(pyStrip (strVal n.text)).data.isEmpty && containsChar (strVal n.text) '\n' then
        let codeLines := (splitChar '\n' (strVal n.text)).map (fun l => indent ++ "    " ++ l)
        .ok ([String.intercalate "\n" ([indent ++ ".. sourcecode::", ""] ++ codeLines)], st)
      else if !(n.childTagged "Paragraph").isEmpty then do
        let (ls, st1) ← runSeq (processNode ctx fuel) n.tag n.children (indent ++ "    ") st
        .ok ([indent ++ ".. sourcecode::", ""] ++ ls, st1)
      else if truthy n.text then
        let (tx, tl) := fixPair n.text n.tail
        .ok (["``" ++ strVal tx ++ "``"] ++ optTail tl, st)
      else .ok (optTail n.tail, st)
    else if n.tag == "Equation" then
      match n.childTagged "MathML" with
      | [] => .error "IndexError: list index out of range"
      | m :: _ =>
        match ctx.translate m with
        | some mathStr =>
          .ok ([indent ++ mathRewrite mathStr, ""], st)
        | none => .ok ([], st)
    else if n.tag == "Reading" then do
      let (ls, st1) ← runSeq (processNode ctx fuel) n.tag n.children (indent ++ "    ") st
      .ok (ls, st1)
    else if n.tag == "InternalSection" || n.tag == "SubSection" then do
      let (ls, st1) ← runSeq (processNode ctx fuel) n.tag n.children indent st
      .ok (ls, st1)
    else if n.tag == "Table" then do
      let firstLine :=
        match n.childTagged "TableHead" with
        | [] => indent ++ ".. list-table:: "
        | h :: _ => indent ++ ".. list-table:: " ++ pyStr h.text
      let rows := n.tbodyRows
      let hdrOpt :=
        if rows.any Node.hasThChild then
          [indent ++ "    :header-rows: " ++ toString (rows.filter Node.hasThChild).length]
        else []
      let (cellLines, st1) ← runRows (processNode ctx fuel) indent rows st
      .ok ([firstLine] ++ hdrOpt ++ [""] ++ cellLines ++ [""], st1)
    else if n.tag == "i" then
      if truthy n.text then
        let (tx, tl) := fixPair n.text n.tail
        .ok (["*" ++ strVal tx ++ "*"] ++ optTail tl, st)
      else .ok (optTail n.tail, st)
    else if n.tag == "b" then
      if truthy n.text then
        let (tx, tl) := fixPair n.text n.tail
        .ok (["**" ++ strVal tx ++ "**"] ++ optTail tl, st)
      else .ok (optTail n.tail, st)
    else if n.tag == "a" then
      if truthy n.text && (n.attr "href").isSome then
        let (tx, tl) := fixPair n.text n.tail
        .ok (["`" ++ strVal tx ++ " <" ++ strVal (n.attr "href") ++ ">`_"] ++ optTail tl, st)
      else .ok (optTail n.tail, st)
    else if n.tag == "olink" then
      if truthy n.text && (n.attr "targetdoc").isSome then
        let (tx, tl) := fixPair n.text n.tail
        let target0 := (splitChar ',' (strVal (n.attr "targetdoc"))).map
          (fun p => removeSpaces (pyLower (pyStrip p)))
        let target :=
          match target0 with
          | [] => [ctx.defaultBlock, ctx.defaultPart]
          | t0 :: _ =>
            if !pyStartsWith t0 "block" then
              if !pyStartsWith t0 "part" then ctx.defaultBlock :: ctx.defaultPart :: target0
              else ctx.defaultBlock :: target0
            else target0
        .ok ([":doc:`" ++ strVal tx ++ " </" ++ String.intercalate "/" target ++ "/index>`"] ++
          optTail tl, st)
      else .ok (optTail n.tail, st)
    else if n.tag == "InlineFigure" then
      match n.imageSrcs with
      | [] => .ok (optTail n.tail, st)
      | src :: _ =>
        let imageid := afterLastBackslash src
        match n.childTagged "Image" with
        | [] => .error "IndexError: list index out of range"
        | img :: _ => do
          let (tmp0, st1) ← processNode ctx fuel n.tag img "" st
          let st2 :=
            if !tmp0.isEmpty then
              let tmp2 := (".. |" ++ imageid ++ "| rst-class:: inline-block") ::
                (("" :: tmp0).map (fun l => "    " ++ l))
              { st1 with defer := st1.defer ++ tmp2 }
            else st1
          .ok (["|" ++ imageid ++ "|"] ++ optTail n.tail, st2)
    else if n.tag == "GlossaryTerm" then
      if truthy n.text then
        let (tx, tl) := fixPair n.text n.tail
        .ok ([":term:`" ++ strVal tx ++ "`"] ++ optTail tl, st)
      else .ok (optTail n.tail, st)
    else if n.tag == "br" then
      .ok ((if truthy n.tail then [indent ++ strVal n.tail] else []), st)
    else if n.tag == "font" then
      .ok ((if truthy n.text then [indent ++ strVal n.text] else []), st)
    else if n.tag == "sup" then
      let (tx, tl) := fixPair n.text n.tail
      .ok ((if truthy tx then [":superscript:`" ++ strVal tx ++ "`"] else []) ++ optTail tl, st)
    else if n.tag == "Section" then
      .ok ([], st)
    else
      .ok ([], { st with diags := st.diags ++ [n.tag] })

/-- `process_section`: resets the deferred queue, converts the section's
children, and flushes the queue to the end of the section's output unit.
File-system placement is out of scope; the returned lines are the output
unit's content. -/
def processSection (ctx : Ctx) (fuel : Nat) (sec : Node) (st : St) :
    Except String (List String × St) := do
  let st0 := { st with defer := ([] : List String) }
  let (buf, st1) ← runSeq (processNode ctx fuel) sec.tag sec.children "" st0
  if !st1.defer.isEmpty then
    .ok (buf ++ st1.defer, { st1 with defer := ([] : List String) })
  else
    .ok (buf, st1)

/-- The section loop of `process_session`: emits each child Section and
collects the per-section navigation entries. -/
def runSections (ctx : Ctx) (fuel : Nat) :
    List Node → Nat → St → Except String (List String × List (List String) × St)
  | [], _, st => .ok ([], [], st)
  | s :: rest, idx, st => do
    let (sb, st1) ← processSection ctx fuel s st
    let (entries, bufs, st2) ← runSections ctx fuel rest (idx + 1) st1
    .ok (("    subsection_" ++ toString (idx + 1)) :: entries, sb :: bufs, st2)

/-- `process_session`: resets the deferred queue, converts the session's own
children, appends a toctree plus one entry per child Section (emitting each
Section on the way), then flushes whatever is left in the deferred queue.
Returns the session's output unit, the child Sections' output units in
order, and the final state. -/
def processSession (ctx : Ctx) (fuel : Nat) (sess : Node) (st : St) :
    Except String (List String × List (List String) × St) := do
  let st0 := { st with defer := ([] : List String) }
  let (buf, st1) ← runSeq (processNode ctx fuel) sess.tag sess.children "" st0
  let sections := sess.childTagged "Section"
  if sections.isEmpty then
    if !st1.defer.isEmpty then
      .ok (buf ++ st1.defer, [], { st1 with defer := ([] : List String) })
    else
      .ok (buf, [], st1)
  else do
    let toc := [".. toctree::", "    :maxdepth: 1", "    :hidden:", ""]
    let (entries, secBufs, st2) ← runSections ctx fuel sections 0 st1
    let buf2 := buf ++ toc ++ entries
    if !st2.defer.isEmpty then
      .ok (buf2 ++ st2.defer, secBufs, { st2 with defer := ([] : List String) })
    else
      .ok (buf2, secBufs, st2)

/-- The configuration `run_import` builds from the `-b`/`-p` options:
`DEFAULT_BLOCK = f'block{block}'` and `DEFAULT_PART = f'part{part}'`. -/
def mkCtx (block part : Nat) (tr : Node → Option String) : Ctx :=
  ⟨"block" ++ toString block, "part" ++ toString part, tr⟩

/-! ## General lemmas about the path-segment helper -/

/-- The backslash-stripped filename contains no backslash. -/
theorem afterLastBS_not_contains : ∀ l : List Char, (afterLastBS l).contains '\\' = false
  | [] => rfl
  | c :: cs => by
    rw [afterLastBS]
    split
    · exact afterLastBS_not_contains cs
    · next h =>
      simp only [Bool.or_eq_true, not_or, beq_iff_eq, Bool.not_eq_true] at h
      simp only [List.contains_cons, Bool.or_eq_false_iff, beq_eq_false_iff_ne]
      exact ⟨Ne.symm h.1, h.2⟩

/-- A backslash-free source path is kept whole. -/
theorem afterLastBS_of_not_contains : ∀ l : List Char, l.contains '\\' = false → afterLastBS l = l
  | [], _ => rfl
  | c :: cs, h => by
    simp only [List.contains_cons, Bool.or_eq_false_iff, beq_eq_false_iff_ne] at h
    rw [afterLastBS, if_neg]
    simp only [Bool.or_eq_true, beq_iff_eq, not_or]
    exact ⟨Ne.symm h.1, by rw [h.2]; exact Bool.false_ne_true⟩

/-- Whatever the prefix depth, only the segment after the last backslash is kept. -/
theorem afterLastBS_append (pre seg : List Char) (h : seg.contains '\\' = false) :
    afterLastBS (pre ++ '\\' :: seg) = seg := by
  induction pre with
  | nil =>
    rw [List.nil_append, afterLastBS, if_pos]
    · exact afterLastBS_of_not_contains seg h
    · simp
  | cons c cs ih =>
    rw [List.cons_append, afterLastBS, if_pos]
    · exact ih
    · simp

/-! ## Concrete fixtures used by witnesses and counterexamples -/

/-- A translator that always yields a falsy result (no Equation in the input). -/
def tr0 : Node → Option String := fun _ => none

/-- The run configuration for options `-b 5 -p 1`. -/
def ctx0 : Ctx := mkCtx 5 1 tr0

/-- The process state at the start of a run. -/
def st0 : St := ⟨[], []⟩

/-- C10: for every Image node carrying a `src` attribute the converter emits
exactly `['.. image:: <segment after the last backslash of src>', '']`,
without any indentation prefix and independently of the indent parameter —
unlike the Figure and MediaContent rules, whose first line starts with the
current indent. -/
theorem c10_image_ignores_indent (ctx : Ctx) (fuel : Nat) (ptag : String)
    (tx tl : Option String) (ats : List (String × String)) (cs : List Node)
    (ind ind' : String) (st : St) (src : String)
    (h : Node.attr (.mk "Image" tx tl ats cs) "src" = some src) :
    processNode ctx (fuel+1) ptag (.mk "Image" tx tl ats cs) ind st =
      .ok ([".. image:: " ++ afterLastBackslash src, ""], st) ∧
    processNode ctx (fuel+1) ptag (.mk "Image" tx tl ats cs) ind st =
      processNode ctx (fuel+1) ptag (.mk "Image" tx tl ats cs) ind' st ∧
    processNode ctx (fuel+1) ptag
        (.mk "Figure" none none [] [.mk "Image" tx tl ats cs]) ind st =
      .ok ([ind ++ ".. figure:: " ++ afterLastBackslash src, ""], st) ∧
    (pyStartsWith src "youtube:" = false →
      processNode ctx (fuel+1) ptag (.mk "MediaContent" none none [("src", src)] []) ind st =
        .ok ([ind ++ ".. iframe:: " ++ afterLastBackslash src, ""], st)) := by
  have eImg : ∀ i : String,
      processNode ctx (fuel+1) ptag (.mk "Image" tx tl ats cs) i st =
        (match Node.attr (.mk "Image" tx tl ats cs) "src" with
         | some s => .ok ([".. image:: " ++ afterLastBackslash s, ""], st)
         | none => .ok ([], st)) := fun _ => rfl
  have eFig : processNode ctx (fuel+1) ptag
      (.mk "Figure" none none [] [.mk "Image" tx tl ats cs]) ind st =
        (match (Node.mk "Figure" none none [] [.mk "Image" tx tl ats cs]).imageSrcs with
         | [] => .ok ([], st)
         | s :: _ => .ok ([ind ++ ".. figure:: " ++ afterLastBackslash s, ""], st)) := rfl
  have hsrcs : (Node.mk "Figure" none none [] [.mk "Image" tx tl ats cs]).imageSrcs = [src] := by
    simp [Node.imageSrcs, Node.childTagged, Node.children, Node.tag, List.filterMap_cons, h]
  refine ⟨?_, ?_, ?_, ?_⟩
  · rw [eImg ind, h]
  · rw [eImg ind, eImg ind']
  · rw [eFig, hsrcs]
  · intro hyt
    have eMC : processNode ctx (fuel+1) ptag
        (.mk "MediaContent" none none [("src", src)] []) ind st =
          (if pyStartsWith src "youtube:" then
            .ok ([ind ++ ".. youtube:: " ++ src.drop 8, ""], st)
          else
            .ok ([ind ++ ".. iframe:: " ++ afterLastBackslash src, ""], st)) := rfl
    rw [eMC, hyt]
    simp

/-- C10 witness: a concrete Image nested at indent four spaces is emitted at
column zero. -/
theorem c10_witness :
    processNode ctx0 1 "Box" (.mk "Image" none none [("src", "a\\b.png")] []) "    " st0 =
      .ok ([".. image:: b.png", ""], st0) :=
  (c10_image_ignores_indent ctx0 0 "Box" none none [("src", "a\\b.png")] [] "    " "" st0
    "a\\b.png" rfl).1

/-- C4 counterexample: only backslashes are treated as path separators, so
the forward-slash path `imgs/fig1.png` is kept whole in the rendered Image
reference instead of being reduced to its final segment `fig1.png`. -/
theorem c4_counterexample :
    processNode ctx0 1 "Session" (.mk "Image" none none [("src", "imgs/fig1.png")] []) "" st0 =
      .ok ([".. image:: imgs/fig1.png", ""], st0) ∧
    ".. image:: imgs/fig1.png" ≠ ".. image:: fig1.png" :=
  ⟨rfl, by decide⟩

/-- C4 (amended): for Image, Figure and non-platform MediaContent sources the
rendered reference keeps exactly the part of `src` after the last backslash:
backslash-separated prefixes of any depth are stripped, the kept segment never
contains a backslash, and a path without backslashes — forward-slash paths
included — is kept whole. -/
theorem c4_amended_final_segment (ctx : Ctx) (fuel : Nat) (ptag : String)
    (tx tl : Option String) (ats : List (String × String)) (cs : List Node)
    (ind : String) (st : St) (src : String)
    (h : Node.attr (.mk "Image" tx tl ats cs) "src" = some src) :
    processNode ctx (fuel+1) ptag (.mk "Image" tx tl ats cs) ind st =
      .ok ([".. image:: " ++ afterLastBackslash src, ""], st) ∧
    processNode ctx (fuel+1) ptag
        (.mk "Figure" none none [] [.mk "Image" tx tl ats cs]) ind st =
      .ok ([ind ++ ".. figure:: " ++ afterLastBackslash src, ""], st) ∧
    (pyStartsWith src "youtube:" = false →
      processNode ctx (fuel+1) ptag (.mk "MediaContent" none none [("src", src)] []) ind st =
        .ok ([ind ++ ".. iframe:: " ++ afterLastBackslash src, ""], st)) ∧
    (afterLastBackslash src).data.contains '\\' = false ∧
    (∀ pre seg : List Char, seg.contains '\\' = false →
      afterLastBackslash ⟨pre ++ '\\' :: seg⟩ = ⟨seg⟩) ∧
    (src.data.contains '\\' = false → afterLastBackslash src = src) := by
  have eImg : processNode ctx (fuel+1) ptag (.mk "Image" tx tl ats cs) ind st =
      (match Node.attr (.mk "Image" tx tl ats cs) "src" with
       | some s => .ok ([".. image:: " ++ afterLastBackslash s, ""], st)
       | none => .ok ([], st)) := rfl
  have eFig : processNode ctx (fuel+1) ptag
      (.mk "Figure" none none [] [.mk "Image" tx tl ats cs]) ind st =
        (match (Node.mk "Figure" none none [] [.mk "Image" tx tl ats cs]).imageSrcs with
         | [] => .ok ([], st)
         | s :: _ => .ok ([ind ++ ".. figure:: " ++ afterLastBackslash s, ""], st)) := rfl
  have hsrcs : (Node.mk "Figure" none none [] [.mk "Image" tx tl ats cs]).imageSrcs = [src] := by
    simp [Node.imageSrcs, Node.childTagged, Node.children, Node.tag, List.filterMap_cons, h]
  refine ⟨by rw [eImg, h], by rw [eFig, hsrcs], ?_, ?_, ?_, ?_⟩
  · intro hyt
    have eMC : processNode ctx (fuel+1) ptag
        (.mk "MediaContent" none none [("src", src)] []) ind st =
          (if pyStartsWith src "youtube:" then
            .ok ([ind ++ ".. youtube:: " ++ src.drop 8, ""], st)
          else
            .ok ([ind ++ ".. iframe:: " ++ afterLastBackslash src, ""], st)) := rfl
    rw [eMC, hyt]
    simp
  · exact afterLastBS_not_contains src.data
  · intro pre seg hseg
    show String.mk (afterLastBS (pre ++ '\\' :: seg)) = ⟨seg⟩
    rw [afterLastBS_append pre seg hseg]
  · intro hnb
    show String.mk (afterLastBS src.data) = src
    rw [afterLastBS_of_not_contains src.data hnb]

/-- C4 witness: a two-level backslash path is reduced to its filename, and
the kept segment contains no backslash. -/
theorem c4_witness :
    processNode ctx0 1 "Session"
        (.mk "Image" none none [("src", "C:\\imgs\\fig1.png")] []) "" st0 =
      .ok ([".. image:: fig1.png", ""], st0) ∧
    (afterLastBackslash "C:\\imgs\\fig1.png").data.contains '\\' = false := by
  have h := c4_amended_final_segment ctx0 0 "Session" none none
    [("src", "C:\\imgs\\fig1.png")] [] "" st0 "C:\\imgs\\fig1.png" rfl
  exact ⟨h.1, h.2.2.2.1⟩

/-- The olink branch's segment normalization: split the targetdoc attribute on
commas, then strip, lowercase and space-strip every segment. -/
def targetSegs (td : String) : List String :=
  (splitChar ',' td).map (fun p => removeSpaces (pyLower (pyStrip p)))

/-- The cross-reference scenario node of the specification. -/
def olinkSpecNode : Node :=
  .mk "olink" (some "X") none [("targetdoc", "Some Block, Part 2, UnitX")] []

/-- C1 counterexample: in the specification's scenario (targetdoc
`"Some Block, Part 2, UnitX"`, ambient defaults block=5 part=1) the first
normalized segment is `someblock`, which does not start with `block`, so
both defaults are prepended and the resolved path is
`block5/part1/someblock/part2/unitx`, not the claimed `block5/part2/unitx`:
explicit part segments do not override the defaults. -/
theorem c1_counterexample :
    processNode ctx0 1 "Paragraph" olinkSpecNode "" st0 =
      .ok ([":doc:`X </block5/part1/someblock/part2/unitx/index>`"], st0) ∧
    ":doc:`X </block5/part1/someblock/part2/unitx/index>`" ≠
      ":doc:`X </block5/part2/unitx/index>`" :=
  ⟨rfl, by decide⟩

/-- C1 (amended): the olink path consists of the comma-split, stripped,
lowercased and space-stripped segments of targetdoc, and only the first
segment is inspected: if it starts with `block` nothing is prepended, if it
starts with `part` only the default block segment is prepended, and otherwise
both the default block and the default part are prepended ahead of all
explicit segments; in the specification's scenario the segments normalize to
`someblock/part2/unitx`, whose first segment does not start with `block`. -/
theorem c1_amended_path_resolution (ctx : Ctx) (fuel : Nat) (ptag t td ind : String)
    (st : St) (s0 : String) (rest : List String)
    (htne : t.data.isEmpty = false) (ht : endsWithSpace t = false)
    (hseg : targetSegs td = s0 :: rest) :
    (pyStartsWith s0 "block" = true →
      processNode ctx (fuel+1) ptag (.mk "olink" (some t) none [("targetdoc", td)] []) ind st =
        .ok ([":doc:`" ++ t ++ " </" ++ String.intercalate "/" (s0 :: rest) ++ "/index>`"], st)) ∧
    (pyStartsWith s0 "block" = false → pyStartsWith s0 "part" = true →
      processNode ctx (fuel+1) ptag (.mk "olink" (some t) none [("targetdoc", td)] []) ind st =
        .ok ([":doc:`" ++ t ++ " </" ++
          String.intercalate "/" (ctx.defaultBlock :: s0 :: rest) ++ "/index>`"], st)) ∧
    (pyStartsWith s0 "block" = false → pyStartsWith s0 "part" = false →
      processNode ctx (fuel+1) ptag (.mk "olink" (some t) none [("targetdoc", td)] []) ind st =
        .ok ([":doc:`" ++ t ++ " </" ++
          String.intercalate "/" (ctx.defaultBlock :: ctx.defaultPart :: s0 :: rest) ++
          "/index>`"], st)) ∧
    targetSegs "Some Block, Part 2, UnitX" = ["someblock", "part2", "unitx"] ∧
    pyStartsWith "someblock" "block" = false := by
  have htr : truthy (some t) = true := by simp [truthy, htne]
  have hfix : fixPair (some t) none = (some t, none) := by
    simp [fixPair, htr, ht, strVal]
  have e : processNode ctx (fuel+1) ptag
      (.mk "olink" (some t) none [("targetdoc", td)] []) ind st =
        (if (truthy (some t) && true) = true then
          (match fixPair (some t) none with
           | (tx, tl) =>
             .ok ([":doc:`" ++ strVal tx ++ " </" ++ String.intercalate "/"
               (match targetSegs td with
                | [] => [ctx.defaultBlock, ctx.defaultPart]
                | t0 :: _ =>
                  if !pyStartsWith t0 "block" then
                    if !pyStartsWith t0 "part" then
                      ctx.defaultBlock :: ctx.defaultPart :: targetSegs td
                    else ctx.defaultBlock :: targetSegs td
                  else targetSegs td) ++
               "/index>`"] ++ optTail tl, st))
        else .ok (optTail (none : Option String), st)) := rfl
  rw [e, htr, hfix, hseg]
  refine ⟨?_, ?_, ?_, rfl, rfl⟩
  · intro hb
    simp [hb, strVal, optTail, truthy]
  · intro hb hp
    simp [hb, hp, strVal, optTail, truthy]
  · intro hb hp
    simp [hb, hp, strVal, optTail, truthy]

/-- C1 witness: a targetdoc whose first normalized segment is `block3`
resolves without any default segment being prepended. -/
theorem c1_witness :
    processNode ctx0 1 "Paragraph"
        (.mk "olink" (some "X") none [("targetdoc", "Block 3, Part 2, UnitX")] []) "" st0 =
      .ok ([":doc:`X </block3/part2/unitx/index>`"], st0) := by
  have h := c1_amended_path_resolution ctx0 0 "Paragraph" "X" "Block 3, Part 2, UnitX" ""
    st0 "block3" ["part2", "unitx"] rfl rfl rfl
  exact h.1 rfl

/-- C5 counterexample: an `i` node whose text ends in two spaces renders as
`*ab *`: only one trailing space is relocated, and the closing `*` delimiter
directly abuts a space character. -/
theorem c5_counterexample :
    processNode ctx0 1 "Paragraph" (.mk "i" (some "ab  ") none [] []) "" st0 =
      .ok (["*ab *", " "], st0) ∧
    endsWithSpace "ab  " = true ∧
    ("*ab *").data.dropLast.getLast? = some ' ' :=
  ⟨rfl, by decide, by decide⟩

/-- C5 (amended): for the eight inline kinds (i, b, sup, GlossaryTerm, a,
ComputerCode, ComputerDisplay, ComputerUI), when the node's text ends in
exactly one space and a non-empty tail follows, the trailing space is removed
from the text before the markup delimiters are applied and reappears exactly
once, as the leading character of the tail line, so the text wrapped by the
delimiters no longer ends with a space. -/
theorem c5_amended_trailing_space (ctx : Ctx) (fuel : Nat) (ptag : String)
    (t u href ind : String) (ats : List (String × String)) (cs : List Node) (st : St)
    (hts : endsWithSpace t = true)
    (h1 : endsWithSpace (t.dropRight 1) = false)
    (htd : (t.dropRight 1).data.isEmpty = false)
    (hu : u.data.isEmpty = false)
    (hnl : containsChar t '\n' = false) :
    processNode ctx (fuel+1) ptag (.mk "i" (some t) (some u) ats cs) ind st =
      .ok (["*" ++ t.dropRight 1 ++ "*", " " ++ u], st) ∧
    processNode ctx (fuel+1) ptag (.mk "b" (some t) (some u) ats cs) ind st =
      .ok (["**" ++ t.dropRight 1 ++ "**", " " ++ u], st) ∧
    processNode ctx (fuel+1) ptag (.mk "sup" (some t) (some u) ats cs) ind st =
      .ok ([":superscript:`" ++ t.dropRight 1 ++ "`", " " ++ u], st) ∧
    processNode ctx (fuel+1) ptag (.mk "GlossaryTerm" (some t) (some u) ats cs) ind st =
      .ok ([":term:`" ++ t.dropRight 1 ++ "`", " " ++ u], st) ∧
    processNode ctx (fuel+1) ptag (.mk "a" (some t) (some u) [("href", href)] cs) ind st =
      .ok (["`" ++ t.dropRight 1 ++ " <" ++ href ++ ">`_", " " ++ u], st) ∧
    processNode ctx (fuel+1) ptag (.mk "ComputerCode" (some t) (some u) ats []) ind st =
      .ok (["``" ++ t.dropRight 1 ++ "``", " " ++ u], st) ∧
    processNode ctx (fuel+1) ptag (.mk "ComputerDisplay" (some t) (some u) ats []) ind st =
      .ok (["``" ++ t.dropRight 1 ++ "``", " " ++ u], st) ∧
    processNode ctx (fuel+1) ptag (.mk "ComputerUI" (some t) (some u) ats []) ind st =
      .ok (["``" ++ t.dropRight 1 ++ "``", " " ++ u], st) ∧
    endsWithSpace (t.dropRight 1) = false := by
  have htne : t.data.isEmpty = false := by
    rcases hd : t.data with _ | ⟨c, cshd⟩
    · rw [endsWithSpace, hd] at hts
      simp at hts
    · rfl
  have htru : truthy (some t) = true := by simp [truthy, htne]
  have hfix : fixPair (some t) (some u) = (some (t.dropRight 1), some (" " ++ u)) := by
    simp [fixPair, truthy, htne, hts, strVal, hu]
  have hopt : optTail (some (" " ++ u)) = [" " ++ u] := by
    simp [optTail, truthy, String.data_append, strVal]
  have htru2 : truthy (some (t.dropRight 1)) = true := by simp [truthy, htd]
  refine ⟨?_, ?_, ?_, ?_, ?_, ?_, ?_, ?_, h1⟩
  · have e : processNode ctx (fuel+1) ptag (.mk "i" (some t) (some u) ats cs) ind st =
        (if truthy (some t) = true then
          (match fixPair (some t) (some u) with
           | (tx, tl) => .ok (["*" ++ strVal tx ++ "*"] ++ optTail tl, st))
         else .ok (optTail (some u), st)) := rfl
    rw [e]
    simp [htru, hfix, hopt, strVal]
  · have e : processNode ctx (fuel+1) ptag (.mk "b" (some t) (some u) ats cs) ind st =
        (if truthy (some t) = true then
          (match fixPair (some t) (some u) with
           | (tx, tl) => .ok (["**" ++ strVal tx ++ "**"] ++ optTail tl, st))
         else .ok (optTail (some u), st)) := rfl
    rw [e]
    simp [htru, hfix, hopt, strVal]
  · have e : processNode ctx (fuel+1) ptag (.mk "sup" (some t) (some u) ats cs) ind st =
        (match fixPair (some t) (some u) with
         | (tx, tl) =>
           .ok ((if truthy tx then [":superscript:`" ++ strVal tx ++ "`"] else []) ++
             optTail tl, st)) := rfl
    rw [e]
    simp [hfix, hopt, htru2, strVal]
  · have e : processNode ctx (fuel+1) ptag
        (.mk "GlossaryTerm" (some t) (some u) ats cs) ind st =
          (if truthy (some t) = true then
            (match fixPair (some t) (some u) with
             | (tx, tl) => .ok ([":term:`" ++ strVal tx ++ "`"] ++ optTail tl, st))
           else .ok (optTail (some u), st)) := rfl
    rw [e]
    simp [htru, hfix, hopt, strVal]
  · have e : processNode ctx (fuel+1) ptag
        (.mk "a" (some t) (some u) [("href", href)] cs) ind st =
          (if (truthy (some t) && true) = true then
            (match fixPair (some t) (some u) with
             | (tx, tl) =>
               .ok (["`" ++ strVal tx ++ " <" ++ href ++ ">`_"] ++ optTail tl, st))
           else .ok (optTail (some u), st)) := rfl
    rw [e]
    simp [htru, hfix, hopt, strVal]
  · have e : processNode ctx (fuel+1) ptag
        (.mk "ComputerCode" (some t) (some u) ats []) ind st =
          (if (truthy (some t) && !(pyStrip (strVal (some t))).data.isEmpty &&
              containsChar (strVal (some t)) '\n') = true then
            .ok ([String.intercalate "\n" ([ind ++ ".. sourcecode::", ""] ++
              (splitChar '\n' (strVal (some t))).map (fun l => ind ++ "    " ++ l))], st)
          else
            (match fixPair (some t) (some u) with
             | (tx, tl) =>
               .ok ((if truthy tx then ["``" ++ strVal tx ++ "``"] else []) ++
                 optTail tl, st))) := rfl
    rw [e]
    have hc : (truthy (some t) && !(pyStrip (strVal (some t))).data.isEmpty &&
        containsChar (strVal (some t)) '\n') = false := by
      simp [strVal, hnl]
    rw [hc]
    simp [hfix, hopt, htru2, strVal]
  · have e : processNode ctx (fuel+1) ptag
        (.mk "ComputerDisplay" (some t) (some u) ats []) ind st =
          (if (truthy (some t) && !(pyStrip (strVal (some t))).data.isEmpty &&
              containsChar (strVal (some t)) '\n') = true then
            .ok ([String.intercalate "\n" ([ind ++ ".. sourcecode::", ""] ++
              (splitChar '\n' (strVal (some t))).map (fun l => ind ++ "    " ++ l))], st)
          else if truthy (some t) = true then
            (match fixPair (some t) (some u) with
             | (tx, tl) => .ok (["``" ++ strVal tx ++ "``"] ++ optTail tl, st))
          else .ok (optTail (some u), st)) := rfl
    rw [e]
    have hc : (truthy (some t) && !(pyStrip (strVal (some t))).data.isEmpty &&
        containsChar (strVal (some t)) '\n') = false := by
      simp [strVal, hnl]
    rw [hc]
    simp [htru, hfix, hopt, strVal]
  · have e : processNode ctx (fuel+1) ptag
        (.mk "ComputerUI" (some t) (some u) ats []) ind st =
          (if (truthy (some t) && !(pyStrip (strVal (some t))).data.isEmpty &&
              containsChar (strVal (some t)) '\n') = true then
            .ok ([String.intercalate "\n" ([ind ++ ".. sourcecode::", ""] ++
              (splitChar '\n' (strVal (some t))).map (fun l => ind ++ "    " ++ l))], st)
          else if truthy (some t) = true then
            (match fixPair (some t) (some u) with
             | (tx, tl) => .ok (["``" ++ strVal tx ++ "``"] ++ optTail tl, st))
          else .ok (optTail (some u), st)) := rfl
    rw [e]
    have hc : (truthy (some t) && !(pyStrip (strVal (some t))).data.isEmpty &&
        containsChar (strVal (some t)) '\n') = false := by
      simp [strVal, hnl]
    rw [hc]
    simp [htru, hfix, hopt, strVal]

/-- C5 witness: `i` text `"ab "` with tail `"xy"` renders as `*ab*` followed
by the tail line `" xy"`. -/
theorem c5_witness :
    processNode ctx0 1 "Paragraph" (.mk "i" (some "ab ") (some "xy") [] []) "" st0 =
      .ok (["*ab*", " xy"], st0) :=
  (c5_amended_trailing_space ctx0 0 "Paragraph" "ab " "xy" "h" "" [] [] st0
    (by decide) (by decide) (by decide) (by decide) (by decide)).1

/-- A MathML element with no content (the translator is modelled externally). -/
def mathMLNode : Node := .mk "MathML" none none [] []

/-- The Equation scenario node. -/
def eqNode : Node := .mk "Equation" none none [] [mathMLNode]

/-- A run configuration whose translator renders every MathML element as
the display-math string of the specification scenario. -/
def ctxM : Ctx := mkCtx 5 1 (fun _ => some "\\[x^2\\]")

/-- C9: an Equation node whose first MathML child the translator renders as
`\[x^2\]` emits exactly the one content line `$$x^2$$` (followed by the blank
separator line), with no embedded newline; the rewrite pipeline escapes
literal backslashes, turns the display-math delimiters into `$$`, and strips
embedded newlines. -/
theorem c9_equation_rule (ctx : Ctx) (fuel : Nat) (ptag : String)
    (tx tl : Option String) (ats : List (String × String)) (cs : List Node)
    (m : Node) (rest : List Node) (ind : String) (st : St)
    (hm : Node.childTagged (.mk "Equation" tx tl ats cs) "MathML" = m :: rest)
    (htr : ctx.translate m = some "\\[x^2\\]") :
    processNode ctx (fuel+1) ptag (.mk "Equation" tx tl ats cs) ind st =
      .ok ([ind ++ "$$x^2$$", ""], st) ∧
    mathRewrite "\\[x^2\\]" = "$$x^2$$" ∧
    containsChar (mathRewrite "\\[x^2\\]") '\n' = false ∧
    mathRewrite "\\[a\\b\\]" = "$$a\\\\b$$" := by
  have e : processNode ctx (fuel+1) ptag (.mk "Equation" tx tl ats cs) ind st =
      (match Node.childTagged (.mk "Equation" tx tl ats cs) "MathML" with
       | [] => .error "IndexError: list index out of range"
       | m0 :: _ =>
         match ctx.translate m0 with
         | some mathStr => .ok ([ind ++ mathRewrite mathStr, ""], st)
         | none => .ok ([], st)) := rfl
  refine ⟨?_, rfl, rfl, rfl⟩
  rw [e, hm]
  show (match ctx.translate m with
    | some mathStr => Except.ok ([ind ++ mathRewrite mathStr, ""], st)
    | none => Except.ok ([], st)) = _
  rw [htr]
  rfl

/-- C9 witness: the concrete Equation scenario evaluates to the single
content line `$$x^2$$`. -/
theorem c9_witness :
    processNode ctxM 1 "Session" eqNode "" st0 = .ok (["$$x^2$$", ""], st0) := by
  have h := c9_equation_rule ctxM 0 "Session" none none [] [mathMLNode] mathMLNode []
    "" st0 rfl rfl
  exact h.1

/-- The underline character the Title/Heading rule picks from the parent's
kind: one shared character for the Session/Section level, one each for
InternalSection and SubSection, and no underline for Quote or an
unrecognized parent. -/
def headingChar (p : String) : String :=
  if p == "Session" || p == "Section" then "#"
  else if p == "InternalSection" then "="
  else if p == "SubSection" then "-"
  else ""

/-- The parent kinds the Title/Heading rule recognizes without diagnosing. -/
def recognizedParent (p : String) : Bool :=
  p == "Session" || p == "Section" || p == "InternalSection" || p == "SubSection" ||
    p == "Quote"

/-- Helper: the full behaviour of the Title/Heading branch. -/
theorem processNode_title_eq (ctx : Ctx) (fuel : Nat) (ptag tg t : String)
    (tl : Option String) (ats : List (String × String)) (cs : List Node)
    (ind : String) (st : St) (ls : List String) (st1 : St)
    (htg : tg = "Title" ∨ tg = "Heading")
    (hrun : runSeq (processNode ctx fuel) tg cs "" st = .ok (ls, st1)) :
    processNode ctx (fuel+1) ptag (.mk tg (some t) tl ats cs) ind st =
      .ok ([pyStrip (t ++ String.join ls),
        strRepeat (headingChar ptag) (pyStrip (t ++ String.join ls)).length, ""],
        if recognizedParent ptag then st1
        else { st1 with diags := st1.diags ++ [ptag] }) := by
  rcases htg with rfl | rfl
  · have e : processNode ctx (fuel+1) ptag (.mk "Title" (some t) tl ats cs) ind st =
        Except.bind (runSeq (processNode ctx fuel) "Title" cs "" st) (fun p =>
          match p with
          | (ls0, stA) =>
            match
              (if (ptag == "Session" || ptag == "Section") = true then ("#", stA)
               else if (ptag == "InternalSection") = true then ("=", stA)
               else if (ptag == "SubSection") = true then ("-", stA)
               else if (ptag == "Quote") = true then ("", stA)
               else ("", { stA with diags := stA.diags ++ [ptag] })) with
            | (hc, st2) =>
              .ok ([pyStrip (t ++ String.join ls0),
                strRepeat hc (pyStrip (t ++ String.join ls0)).length, ""], st2)) := rfl
    rw [e, hrun]
    show (match
        (if (ptag == "Session" || ptag == "Section") = true then ("#", st1)
         else if (ptag == "InternalSection") = true then ("=", st1)
         else if (ptag == "SubSection") = true then ("-", st1)
         else if (ptag == "Quote") = true then ("", st1)
         else ("", { st1 with diags := st1.diags ++ [ptag] })) with
      | (hc, st2) =>
        Except.ok ([pyStrip (t ++ String.join ls),
          strRepeat hc (pyStrip (t ++ String.join ls)).length, ""], st2)) = _
    simp only [headingChar, recognizedParent]
    split_ifs <;> simp_all
  · have e : processNode ctx (fuel+1) ptag (.mk "Heading" (some t) tl ats cs) ind st =
        Except.bind (runSeq (processNode ctx fuel) "Heading" cs "" st) (fun p =>
          match p with
          | (ls0, stA) =>
            match
              (if (ptag == "Session" || ptag == "Section") = true then ("#", stA)
               else if (ptag == "InternalSection") = true then ("=", stA)
               else if (ptag == "SubSection") = true then ("-", stA)
               else if (ptag == "Quote") = true then ("", stA)
               else ("", { stA with diags := stA.diags ++ [ptag] })) with
            | (hc, st2) =>
              .ok ([pyStrip (t ++ String.join ls0),
                strRepeat hc (pyStrip (t ++ String.join ls0)).length, ""], st2)) := rfl
    rw [e, hrun]
    show (match
        (if (ptag == "Session" || ptag == "Section") = true then ("#", st1)
         else if (ptag == "InternalSection") = true then ("=", st1)
         else if (ptag == "SubSection") = true then ("-", st1)
         else if (ptag == "Quote") = true then ("", st1)
         else ("", { st1 with diags := st1.diags ++ [ptag] })) with
      | (hc, st2) =>
        Except.ok ([pyStrip (t ++ String.join ls),
          strRepeat hc (pyStrip (t ++ String.join ls)).length, ""], st2)) = _
    simp only [headingChar, recognizedParent]
    split_ifs <;> simp_all

/-- C6: a Title or Heading node renders as its own text concatenated with the
joined output of its recursively converted children, stripped of surrounding
whitespace, underlined by repeating a character determined solely by the
parent's tag to exactly the heading's length, followed by a blank line; the
recognized parent levels map to `#` for Session/Section, `=` for
InternalSection, `-` for SubSection and no underline character for Quote, and
an unrecognized parent kind appends one diagnostic instead of failing. -/
theorem c6_heading_rule (ctx : Ctx) (fuel : Nat) (ptag tg t : String)
    (tl : Option String) (ats : List (String × String)) (cs : List Node)
    (ind : String) (st : St) (ls : List String) (st1 : St)
    (htg : tg = "Title" ∨ tg = "Heading")
    (hrun : runSeq (processNode ctx fuel) tg cs "" st = .ok (ls, st1)) :
    processNode ctx (fuel+1) ptag (.mk tg (some t) tl ats cs) ind st =
      .ok ([pyStrip (t ++ String.join ls),
        strRepeat (headingChar ptag) (pyStrip (t ++ String.join ls)).length, ""],
        if recognizedParent ptag then st1
        else { st1 with diags := st1.diags ++ [ptag] }) ∧
    headingChar "Session" = "#" ∧ headingChar "Section" = "#" ∧
    headingChar "InternalSection" = "=" ∧ headingChar "SubSection" = "-" ∧
    headingChar "Quote" = "" ∧
    recognizedParent "Quote" = true ∧ recognizedParent "Paragraph" = false :=
  ⟨processNode_title_eq ctx fuel ptag tg t tl ats cs ind st ls st1 htg hrun,
    rfl, rfl, rfl, rfl, rfl, rfl, rfl⟩

/-- C6 witness: a Title with padded text under a Section parent renders the
stripped text over a full-width `#` underline, with no diagnostic. -/
theorem c6_witness :
    processNode ctx0 1 "Section" (.mk "Title" (some " My Title ") none [] []) "  " st0 =
      .ok (["My Title", "########", ""], st0) := by
  have h := (c6_heading_rule ctx0 0 "Section" "Title" " My Title " none [] [] "  "
    st0 [] st0 (Or.inl rfl) rfl).1
  rw [h]
  rfl

/-! ## Composition lemmas for the sibling loops -/

theorem runSeq_nil (f : String → Node → String → St → Except String (List String × St))
    (p ind : String) (st : St) : runSeq f p [] ind st = .ok ([], st) := rfl

theorem runSeq_cons (f : String → Node → String → St → Except String (List String × St))
    (p : String) (n : Node) (rest : List Node) (ind : String) (st st1 st2 : St)
    (ls more : List String)
    (h : f p n ind st = .ok (ls, st1))
    (hrest : runSeq f p rest ind st1 = .ok (more, st2)) :
    runSeq f p (n :: rest) ind st = .ok (ls ++ more, st2) := by
  have e : runSeq f p (n :: rest) ind st =
      Except.bind (f p n ind st) (fun d =>
        match d with
        | (ls0, stA) =>
          Except.bind (runSeq f p rest ind stA) (fun d2 =>
            match d2 with
            | (more0, stB) => .ok (ls0 ++ more0, stB))) := rfl
  rw [e, h]
  show Except.bind (runSeq f p rest ind st1) _ = _
  rw [hrest]
  rfl

theorem runItems_nil (f : String → Node → String → St → Except String (List String × St))
    (p ind tag : String) (first : Bool) (st : St) :
    runItems f p [] ind tag first st = .ok ([], st) := rfl

theorem runItems_cons (f : String → Node → String → St → Except String (List String × St))
    (p : String) (c : Node) (rest : List Node) (ind tag : String) (first : Bool)
    (st st1 st2 : St) (ls more : List String)
    (h : f p c (if first then ind ++ tag else ind ++ spacesN tag.length) st = .ok (ls, st1))
    (hrest : runItems f p rest ind tag false st1 = .ok (more, st2)) :
    runItems f p (c :: rest) ind tag first st = .ok (ls ++ more, st2) := by
  have e : runItems f p (c :: rest) ind tag first st =
      Except.bind (f p c (if first then ind ++ tag else ind ++ spacesN tag.length) st)
        (fun d =>
          match d with
          | (ls0, stA) =>
            Except.bind (runItems f p rest ind tag false stA) (fun d2 =>
              match d2 with
              | (more0, stB) => .ok (ls0 ++ more0, stB))) := rfl
  rw [e, h]
  show Except.bind (runItems f p rest ind tag false st1) _ = _
  rw [hrest]
  rfl

/-- The continuation padding is exactly as wide as the item marker. -/
theorem spacesN_length (n : Nat) : (spacesN n).length = n := by
  show (String.mk (List.replicate n ' ')).length = n
  simp [String.length]

/-- C7: a ListItem or SubListItem's marker is chosen by the immediate
parent's tag alone — `#. ` exactly when the parent is a NumberedList, `* `
otherwise; an item without direct text prefixes its first child with
indent+marker and every subsequent child with indent plus exactly
marker-width spaces; an item with direct text emits a single line made of
indent, marker, the text and the joined child output. -/
theorem c7_list_item_rule (ctx : Ctx) (fuel : Nat) (p tg t : String)
    (tl : Option String) (ats : List (String × String)) (c1 c2 : Node)
    (cs : List Node) (ind : String) (st : St) (l1 l2 ls3 : List String)
    (st1 st2 st3 : St)
    (htg : tg = "ListItem" ∨ tg = "SubListItem")
    (h1 : processNode ctx fuel tg c1
      (ind ++ (if p == "NumberedList" then "#. " else "* ")) st = .ok (l1, st1))
    (h2 : processNode ctx fuel tg c2
      (ind ++ spacesN (if p == "NumberedList" then "#. " else "* ").length) st1 =
        .ok (l2, st2))
    (htx : t.data.isEmpty = false)
    (h3 : runSeq (processNode ctx fuel) tg cs "" st = .ok (ls3, st3)) :
    processNode ctx (fuel+1) p (.mk tg none tl ats [c1, c2]) ind st =
      .ok (l1 ++ l2, st2) ∧
    processNode ctx (fuel+1) p (.mk tg (some t) tl ats cs) ind st =
      .ok ([ind ++ (if p == "NumberedList" then "#. " else "* ") ++ t ++
        String.join ls3], st3) ∧
    (spacesN (if p == "NumberedList" then "#. " else "* ").length).length =
      (if p == "NumberedList" then "#. " else "* ").length ∧
    ((p == "NumberedList") = true → (if p == "NumberedList" then "#. " else "* ") = "#. ") ∧
    ((p == "NumberedList") = false → (if p == "NumberedList" then "#. " else "* ") = "* ") := by
  refine ⟨?_, ?_, spacesN_length _,
    fun hp => by rw [hp]; rfl, fun hp => by rw [hp]; rfl⟩
  · rcases htg with rfl | rfl
    · have e : processNode ctx (fuel+1) p (.mk "ListItem" none tl ats [c1, c2]) ind st =
          runItems (processNode ctx fuel) "ListItem" [c1, c2] ind
            (if (p == "NumberedList") = true then "#. " else "* ") true st := rfl
      rw [e]
      have r2 := runItems_cons (processNode ctx fuel) "ListItem" c2 [] ind
        (if (p == "NumberedList") = true then "#. " else "* ") false st1 st2 st2 l2 []
        h2 (runItems_nil _ _ _ _ _ _)
      have r1 := runItems_cons (processNode ctx fuel) "ListItem" c1 [c2] ind
        (if (p == "NumberedList") = true then "#. " else "* ") true st st1 st2 l1 (l2 ++ [])
        h1 r2
      rw [r1, List.append_nil]
    · have e : processNode ctx (fuel+1) p (.mk "SubListItem" none tl ats [c1, c2]) ind st =
          runItems (processNode ctx fuel) "SubListItem" [c1, c2] ind
            (if (p == "NumberedList") = true then "#. " else "* ") true st := rfl
      rw [e]
      have r2 := runItems_cons (processNode ctx fuel) "SubListItem" c2 [] ind
        (if (p == "NumberedList") = true then "#. " else "* ") false st1 st2 st2 l2 []
        h2 (runItems_nil _ _ _ _ _ _)
      have r1 := runItems_cons (processNode ctx fuel) "SubListItem" c1 [c2] ind
        (if (p == "NumberedList") = true then "#. " else "* ") true st st1 st2 l1 (l2 ++ [])
        h1 r2
      rw [r1, List.append_nil]
  · rcases htg with rfl | rfl
    · have e : processNode ctx (fuel+1) p (.mk "ListItem" (some t) tl ats cs) ind st =
          (if truthy (some t) = true then
            Except.bind (runSeq (processNode ctx fuel) "ListItem" cs "" st) (fun r =>
              match r with
              | (ls0, stA) =>
                .ok ([ind ++ (if (p == "NumberedList") = true then "#. " else "* ") ++
                  strVal (some t) ++ String.join ls0], stA))
           else
            runItems (processNode ctx fuel) "ListItem" cs ind
              (if (p == "NumberedList") = true then "#. " else "* ") true st) := rfl
      rw [e]
      have htr : truthy (some t) = true := by simp [truthy, htx]
      rw [htr, if_pos rfl, h3]
      simp [strVal, Except.bind]
    · have e : processNode ctx (fuel+1) p (.mk "SubListItem" (some t) tl ats cs) ind st =
          (if truthy (some t) = true then
            Except.bind (runSeq (processNode ctx fuel) "SubListItem" cs "" st) (fun r =>
              match r with
              | (ls0, stA) =>
                .ok ([ind ++ (if (p == "NumberedList") = true then "#. " else "* ") ++
                  strVal (some t) ++ String.join ls0], stA))
           else
            runItems (processNode ctx fuel) "SubListItem" cs ind
              (if (p == "NumberedList") = true then "#. " else "* ") true st) := rfl
      rw [e]
      have htr : truthy (some t) = true := by simp [truthy, htx]
      rw [htr, if_pos rfl, h3]
      simp [strVal, Except.bind]

/-- C7 witness: a text-less numbered-list item with two paragraph children
pads the second child's line by exactly the three-character marker width. -/
theorem c7_witness :
    processNode ctx0 2 "NumberedList"
        (.mk "ListItem" none none []
          [.mk "Paragraph" (some "a") none [] [], .mk "Paragraph" (some "b") none [] []])
        "" st0 =
      .ok (["#. a", "", "   b", ""], st0) := by
  have h := c7_list_item_rule ctx0 1 "NumberedList" "ListItem" "x" none []
    (.mk "Paragraph" (some "a") none [] []) (.mk "Paragraph" (some "b") none [] [])
    [] "" st0 ["#. a", ""] ["   b", ""] [] st0 st0 st0 (Or.inl rfl) rfl rfl (by decide) rfl
  exact h.1

/-- C8: a Table's `:header-rows:` option records exactly the number of tbody
rows that contain at least one th cell, and the option line is omitted when
no body row has one. -/
theorem c8_table_header_rows (ctx : Ctx) (fuel : Nat) (ptag : String)
    (tx tl : Option String) (ats : List (String × String)) (cs : List Node)
    (ind : String) (st : St) (cl : List String) (st1 : St)
    (hrows : runRows (processNode ctx fuel) ind
      (Node.mk "Table" tx tl ats cs).tbodyRows st = .ok (cl, st1)) :
    processNode ctx (fuel+1) ptag (.mk "Table" tx tl ats cs) ind st =
      .ok ((match (Node.mk "Table" tx tl ats cs).childTagged "TableHead" with
            | [] => ind ++ ".. list-table:: "
            | h :: _ => ind ++ ".. list-table:: " ++ pyStr h.text) ::
        ((if (Node.mk "Table" tx tl ats cs).tbodyRows.any Node.hasThChild then
            [ind ++ "    :header-rows: " ++
              toString (((Node.mk "Table" tx tl ats cs).tbodyRows.filter
                Node.hasThChild).length)]
          else []) ++ [""] ++ cl ++ [""]), st1) := by
  have e : processNode ctx (fuel+1) ptag (.mk "Table" tx tl ats cs) ind st =
      Except.bind (runRows (processNode ctx fuel) ind
          (Node.mk "Table" tx tl ats cs).tbodyRows st) (fun d =>
        match d with
        | (cellLines, stA) =>
          .ok ([match (Node.mk "Table" tx tl ats cs).childTagged "TableHead" with
                | [] => ind ++ ".. list-table:: "
                | h :: _ => ind ++ ".. list-table:: " ++ pyStr h.text] ++
            (if (Node.mk "Table" tx tl ats cs).tbodyRows.any Node.hasThChild then
              [ind ++ "    :header-rows: " ++
                toString (((Node.mk "Table" tx tl ats cs).tbodyRows.filter
                  Node.hasThChild).length)]
             else []) ++ [""] ++ cellLines ++ [""], stA)) := rfl
  rw [e, hrows]
  show Except.ok _ = _
  simp

/-- C8 witness: a table whose tbody has one th row and one td row emits
`:header-rows: 1`. -/
theorem c8_witness :
    processNode ctx0 2 "Session"
        (.mk "Table" none none []
          [.mk "tbody" none none []
            [.mk "tr" none none [] [.mk "th" (some "H") none [] []],
             .mk "tr" none none [] [.mk "td" (some "v") none [] []]]]) "" st0 =
      .ok ([".. list-table:: ", "    :header-rows: 1", "", "    * - H", "    * - v", ""],
        st0) := by
  have h := c8_table_header_rows ctx0 1 "Session" none none []
    [.mk "tbody" none none []
      [.mk "tr" none none [] [.mk "th" (some "H") none [] []],
       .mk "tr" none none [] [.mk "td" (some "v") none [] []]]] "" st0
    ["    * - H", "    * - v"] st0 rfl
  exact h

/-- The Image whose substitution definition must be deferred. -/
def imgDefer : Node := .mk "Image" none none [("src", "figs\\x.png")] []

/-- An InlineFigure inside running text. -/
def inlineFigNode : Node := .mk "InlineFigure" none (some "here.") [] [imgDefer]

/-- A paragraph of Session-own content holding the InlineFigure. -/
def paraWithFig : Node := .mk "Paragraph" (some "See ") none [] [inlineFigNode]

/-- The body paragraph of the child Section. -/
def bodyPara : Node := .mk "Paragraph" (some "Body.") none [] []

/-- A child Section of the Session. -/
def childSection : Node := .mk "Section" none none [] [bodyPara]

/-- A Session whose own content defers a block and that has a child Section. -/
def sessionWithSection : Node := .mk "Session" none none [] [paraWithFig, childSection]

/-- The same Session content without the child Section. -/
def sessionNoSection : Node := .mk "Session" none none [] [paraWithFig]

/-- The first line of the deferred substitution definition. -/
def substDefLine : String := ".. |x.png| rst-class:: inline-block"

/-- C2 exhibits the deferred-output bug: a Session whose own paragraph
defers an InlineFigure substitution definition loses that block entirely when
the Session also has a child Section — the section pass resets the deferred
queue before the Session's own flush runs, so the substitution-definition
line appears nowhere in the output — while the very same Session content
without a child Section flushes the block at the end of the Session's
output. -/
theorem c2_deferred_drop_eval :
    processSession ctx0 6 sessionWithSection st0 =
      .ok (["See |x.png|here.", "", ".. toctree::", "    :maxdepth: 1", "    :hidden:",
        "", "    subsection_1"], [["Body.", ""]], st0) ∧
    substDefLine ∉ ["See |x.png|here.", "", ".. toctree::", "    :maxdepth: 1",
      "    :hidden:", "", "    subsection_1"] ∧
    substDefLine ∉ ["Body.", ""] ∧
    processSession ctx0 6 sessionNoSection st0 =
      .ok (["See |x.png|here.", "", substDefLine, "    ", "    .. image:: x.png", "    "],
        [], st0) ∧
    substDefLine ∈ ["See |x.png|here.", "", substDefLine, "    ", "    .. image:: x.png",
      "    "] :=
  ⟨rfl, by decide, by decide, rfl, by decide⟩

/-! ## Well-formedness: sufficient conditions under which `process_node`
cannot raise.  `neTag` lists the kinds whose rule always emits at least one
line; `localOk` states the per-node conditions (Title/Heading must have text,
a Box needs heading text or a non-Heading child that renders non-empty, a
list needs an item that renders non-empty, Figure captions must have no
element children, an Equation needs a MathML child); `wfTree` closes the
conditions over the whole subtree, on the same fuel that bounds the
recursion. -/

/-- Kinds whose branch always returns a non-empty line sequence. -/
def neTag (t : String) : Bool :=
  t == "Title" || t == "Heading" || t == "Paragraph" || t == "Timing" ||
  t == "StudyNote" || t == "Description" || t == "Transcript" || t == "Answer" ||
  t == "SourceReference" || t == "Table"

/-- Whether a list item (or other list child) is guaranteed to render
non-empty: direct text, or some child of a guaranteed-non-empty kind. -/
def itemOk (c : Node) : Bool :=
  if c.tag == "ListItem" || c.tag == "SubListItem" then
    truthy c.text || c.children.any (fun g => neTag g.tag)
  else neTag c.tag

/-- The per-node safety condition. -/
def localOk (n : Node) : Bool :=
  if n.tag == "Title" || n.tag == "Heading" then n.text.isSome
  else if n.tag == "Box" then
    !(n.childTexts "Heading").isEmpty ||
      n.children.any (fun c => c.tag != "Heading" && neTag c.tag)
  else if n.tag == "Figure" then
    (n.childTagged "Caption").all (fun cap => cap.children.isEmpty)
  else if n.tag == "Equation" then !(n.childTagged "MathML").isEmpty
  else if n.tag == "BulletedList" || n.tag == "BulletedSubsidiaryList" ||
      n.tag == "UnNumberedList" || n.tag == "UnNumberedSubsidiaryList" ||
      n.tag == "NumberedList" then
    n.children.any itemOk
  else true

/-- Hereditary well-formedness, bounded by the fuel that also bounds the
conversion recursion. -/
def wfTree : Nat → Node → Bool
  | 0, _ => false
  | fuel+1, n => localOk n && n.children.all (wfTree fuel)

/-- Well-formedness at a smaller fuel implies it at any larger fuel. -/
theorem wfTree_mono : ∀ m : Nat, ∀ n : Node, ∀ m' : Nat, m ≤ m' →
    wfTree m n = true → wfTree m' n = true := by
  intro m
  induction m with
  | zero => intro n m' _ h; rw [wfTree] at h; exact absurd h (by decide)
  | succ k ih =>
    intro n m' hle h
    obtain ⟨m'', rfl⟩ : ∃ m'', m' = m'' + 1 := ⟨m' - 1, by omega⟩
    rw [wfTree, Bool.and_eq_true, List.all_eq_true] at h ⊢
    exact ⟨h.1, fun c hc => ih c m'' (by omega) (h.2 c hc)⟩

/-- If every node of a list converts successfully, the sibling loop
converts successfully, and the output is non-empty when some member is
guaranteed non-empty. -/
theorem runSeq_ok (f : String → Node → String → St → Except String (List String × St))
    (ns : List Node)
    (H : ∀ m ∈ ns, ∀ pt i : String, ∀ s : St,
      ∃ r : List String × St, f pt m i s = .ok r ∧ (itemOk m = true → r.1 ≠ [])) :
    ∀ pt i : String, ∀ s : St, ∃ ls st',
      runSeq f pt ns i s = .ok (ls, st') ∧
      ((∃ m ∈ ns, itemOk m = true) → ls ≠ []) := by
  induction ns with
  | nil =>
    intro pt i s
    exact ⟨[], s, rfl, by rintro ⟨m, hm, _⟩; cases hm⟩
  | cons n rest ih =>
    intro pt i s
    obtain ⟨⟨ls1, st1⟩, hf, hne⟩ := H n (by simp) pt i s
    obtain ⟨more, st2, hrest, hne2⟩ := ih (fun m hm => H m (by simp [hm])) pt i st1
    refine ⟨ls1 ++ more, st2, runSeq_cons f pt n rest i s st1 st2 ls1 more hf hrest, ?_⟩
    rintro ⟨m, hm, hio⟩
    rcases List.mem_cons.mp hm with rfl | hm'
    · intro hc
      exact hne hio (by simpa using (List.append_eq_nil.mp hc).1)
    · intro hc
      exact hne2 ⟨m, hm', hio⟩ (by simpa using (List.append_eq_nil.mp hc).2)

/-- The analogue for the list-item child loop. -/
theorem runItems_ok (f : String → Node → String → St → Except String (List String × St))
    (ns : List Node)
    (H : ∀ m ∈ ns, ∀ pt i : String, ∀ s : St,
      ∃ r : List String × St, f pt m i s = .ok r ∧ (itemOk m = true → r.1 ≠ [])) :
    ∀ pt ind tag : String, ∀ first : Bool, ∀ s : St, ∃ ls st',
      runItems f pt ns ind tag first s = .ok (ls, st') ∧
      ((∃ m ∈ ns, itemOk m = true) → ls ≠ []) := by
  induction ns with
  | nil =>
    intro pt ind tag first s
    exact ⟨[], s, rfl, by rintro ⟨m, hm, _⟩; cases hm⟩
  | cons n rest ih =>
    intro pt ind tag first s
    obtain ⟨⟨ls1, st1⟩, hf, hne⟩ :=
      H n (by simp) pt (if first then ind ++ tag else ind ++ spacesN tag.length) s
    obtain ⟨more, st2, hrest, hne2⟩ := ih (fun m hm => H m (by simp [hm])) pt ind tag false st1
    refine ⟨ls1 ++ more, st2,
      runItems_cons f pt n rest ind tag first s st1 st2 ls1 more hf hrest, ?_⟩
    rintro ⟨m, hm, hio⟩
    rcases List.mem_cons.mp hm with rfl | hm'
    · intro hc
      exact hne hio (by simpa using (List.append_eq_nil.mp hc).1)
    · intro hc
      exact hne2 ⟨m, hm', hio⟩ (by simpa using (List.append_eq_nil.mp hc).2)

theorem runCells_cons (f : String → Node → String → St → Except String (List String × St))
    (ind : String) (c : Node) (rest : List Node) (first : Bool) (st st1 st2 : St)
    (ls more : List String)
    (h : runSeq f c.tag c.children "" st = .ok (ls, st1))
    (hrest : runCells f ind rest false st1 = .ok (more, st2)) :
    runCells f ind (c :: rest) first st =
      .ok (((if first then ind ++ "    * - " else ind ++ "      - ") ++
        (if truthy c.text then strVal c.text else "") ++ String.join ls) :: more, st2) := by
  have e : runCells f ind (c :: rest) first st =
      Except.bind (runSeq f c.tag c.children "" st) (fun d =>
        match d with
        | (ls0, stA) =>
          Except.bind (runCells f ind rest false stA) (fun d2 =>
            match d2 with
            | (more0, stB) =>
              .ok (((if first then ind ++ "    * - " else ind ++ "      - ") ++
                (if truthy c.text then strVal c.text else "") ++ String.join ls0) :: more0,
                stB))) := rfl
  rw [e, h]
  show Except.bind (runCells f ind rest false st1) _ = _
  rw [hrest]
  rfl

/-- If all the parts of all the cells convert successfully, a table's cell
loop converts successfully. -/
theorem runCells_ok (f : String → Node → String → St → Except String (List String × St))
    (ind : String) (cells : List Node)
    (H : ∀ c ∈ cells, ∀ m ∈ c.children, ∀ pt i : String, ∀ s : St,
      ∃ r : List String × St, f pt m i s = .ok r ∧ (itemOk m = true → r.1 ≠ [])) :
    ∀ first : Bool, ∀ s : St, ∃ ls st', runCells f ind cells first s = .ok (ls, st') := by
  induction cells with
  | nil => intro first s; exact ⟨[], s, rfl⟩
  | cons c rest ih =>
    intro first s
    obtain ⟨ls1, st1, hseq, -⟩ :=
      runSeq_ok f c.children (fun m hm => H c (by simp) m hm) c.tag "" s
    obtain ⟨more, st2, hrest⟩ := ih (fun c' hc' => H c' (by simp [hc'])) false st1
    exact ⟨_, st2, runCells_cons f ind c rest first s st1 st2 ls1 more hseq hrest⟩

theorem runRows_cons (f : String → Node → String → St → Except String (List String × St))
    (ind : String) (r : Node) (rest : List Node) (st st1 st2 : St) (ls more : List String)
    (h : runCells f ind r.rowCells true st = .ok (ls, st1))
    (hrest : runRows f ind rest st1 = .ok (more, st2)) :
    runRows f ind (r :: rest) st = .ok (ls ++ more, st2) := by
  have e : runRows f ind (r :: rest) st =
      Except.bind (runCells f ind r.rowCells true st) (fun d =>
        match d with
        | (ls0, stA) =>
          Except.bind (runRows f ind rest stA) (fun d2 =>
            match d2 with
            | (more0, stB) => .ok (ls0 ++ more0, stB))) := rfl
  rw [e, h]
  show Except.bind (runRows f ind rest st1) _ = _
  rw [hrest]
  rfl

/-- If all the parts of all the cells of all the rows convert successfully,
a table's row loop converts successfully. -/
theorem runRows_ok (f : String → Node → String → St → Except String (List String × St))
    (ind : String) (rows : List Node)
    (H : ∀ r ∈ rows, ∀ c ∈ r.rowCells, ∀ m ∈ c.children, ∀ pt i : String, ∀ s : St,
      ∃ res : List String × St, f pt m i s = .ok res ∧ (itemOk m = true → res.1 ≠ [])) :
    ∀ s : St, ∃ ls st', runRows f ind rows s = .ok (ls, st') := by
  induction rows with
  | nil => intro s; exact ⟨[], s, rfl⟩
  | cons r rest ih =>
    intro s
    obtain ⟨ls1, st1, hcells⟩ := runCells_ok f ind r.rowCells (fun c hc => H r (by simp) c hc) true s
    obtain ⟨more, st2, hrest⟩ := ih (fun r' hr' => H r' (by simp [hr'])) st1
    exact ⟨ls1 ++ more, st2, runRows_cons f ind r rest s st1 st2 ls1 more hcells hrest⟩

/-- Premise packaging for the induction: every node of the list converts
successfully at the given fuel, with non-empty output for the
guaranteed-non-empty shapes. -/
def ChildrenOk (ctx : Ctx) (fuel : Nat) (ns : List Node) : Prop :=
  ∀ m ∈ ns, ∀ pt i : String, ∀ s : St,
    ∃ r : List String × St, processNode ctx fuel pt m i s = .ok r ∧
      (itemOk m = true → r.1 ≠ [])

/-- A node of a guaranteed-non-empty kind is a guaranteed-non-empty list child. -/
theorem itemOk_of_neTag (c : Node) (h : neTag c.tag = true) : itemOk c = true := by
  rw [itemOk]
  split
  · next hc =>
    rw [Bool.or_eq_true, beq_iff_eq, beq_iff_eq] at hc
    rcases hc with hc | hc <;> rw [hc] at h <;> exact absurd h (by decide)
  · exact h

/-- Well-formedness descends to children without losing fuel. -/
theorem wfTree_descend {f : Nat} {n c : Node} (h : wfTree f n = true)
    (hc : c ∈ n.children) : wfTree f c = true := by
  rcases f with _ | f1
  · rw [wfTree] at h; exact absurd h (by decide)
  · rw [wfTree, Bool.and_eq_true, List.all_eq_true] at h
    exact wfTree_mono f1 c (f1 + 1) (by omega) (h.2 c hc)

/-- C3 counterexample: the three degenerate recognized-kind inputs named by
the claim all raise IndexError instead of returning a line sequence: a Box
with no Heading and no other children, a list with no items, and an
Equation with no MathML child. -/
theorem c3_counterexample :
    processNode ctx0 2 "Session" (.mk "Box" none none [] []) "" st0 =
      .error "IndexError: list index out of range" ∧
    processNode ctx0 2 "Session" (.mk "BulletedList" none none [] []) "" st0 =
      .error "IndexError: list index out of range" ∧
    processNode ctx0 2 "Session" (.mk "Equation" none none [] []) "" st0 =
      .error "IndexError: list index out of range" :=
  ⟨rfl, rfl, rfl⟩

end OuXmlToRst
namespace OuXmlToRst

/-- Reducing a bind whose first component is a pure value. -/
theorem exc_pure_bind {A B : Type} (a : A) (f : A → Except String B) :
    (pure a : Except String A) >>= f = f a := rfl

/-- Reducing a bind whose first component is an ok value. -/
theorem exc_bind_ok {A B : Type} (a : A) (f : A → Except String B) :
    (Except.ok a : Except String A) >>= f = f a := rfl

set_option maxHeartbeats 3200000 in
/-- Main safety induction: on well-formed input the converter never raises,
and the guaranteed-non-empty kinds return non-empty output. -/
theorem processNode_wf_ok (ctx : Ctx) :
    ∀ fuel : Nat, ∀ n : Node, ∀ ptag ind : String, ∀ st : St,
      wfTree fuel n = true →
      ∃ r : List String × St, processNode ctx fuel ptag n ind st = .ok r ∧
        (itemOk n = true → r.1 ≠ []) := by
  intro fuel
  induction fuel with
  | zero =>
    intro n ptag ind st h
    rw [wfTree] at h
    exact absurd h (by decide)
  | succ fuel ih =>
    intro n ptag ind st hwf
    rcases n with ⟨tg, tx, tl, ats, cs⟩
    rw [wfTree, Bool.and_eq_true, List.all_eq_true] at hwf
    obtain ⟨hloc, hkids⟩ := hwf
    have HC : ChildrenOk ctx fuel cs := fun m hm pt i s => ih m pt i s (hkids m hm)
    by_cases h01 : (tg == "Title" || tg == "Heading") = true
    ·
      rw [Bool.or_eq_true, beq_iff_eq, beq_iff_eq] at h01
      rcases h01 with rfl | rfl
      · have htx : tx.isSome = true := hloc
        rcases tx with _ | t
        · exact absurd htx (by decide)
        obtain ⟨ls, st1, hrun, -⟩ := runSeq_ok (processNode ctx fuel) cs HC "Title" "" st
        exact ⟨_, processNode_title_eq ctx fuel ptag "Title" t tl ats cs ind st ls st1
          (Or.inl rfl) hrun, fun _ => by simp⟩
      · have htx : tx.isSome = true := hloc
        rcases tx with _ | t
        · exact absurd htx (by decide)
        obtain ⟨ls, st1, hrun, -⟩ := runSeq_ok (processNode ctx fuel) cs HC "Heading" "" st
        exact ⟨_, processNode_title_eq ctx fuel ptag "Heading" t tl ats cs ind st ls st1
          (Or.inr rfl) hrun, fun _ => by simp⟩
    by_cases h02 : (tg == "Paragraph" || tg == "Timing") = true
    ·
      rw [Bool.or_eq_true, beq_iff_eq, beq_iff_eq] at h02
      rcases h02 with rfl | rfl
      · obtain ⟨ls, st1, hrun, -⟩ := runSeq_ok (processNode ctx fuel) cs HC "Paragraph" "" st
        have e : processNode ctx (fuel+1) ptag (.mk "Paragraph" tx tl ats cs) ind st =
            Except.bind (runSeq (processNode ctx fuel) "Paragraph" cs "" st) (fun d =>
              match d with
              | (ls0, stA) =>
                .ok ([ind ++ (if truthy tx then strVal tx else "") ++ String.join ls0, ""],
                  stA)) := rfl
        rw [e, hrun]
        exact ⟨_, rfl, fun _ => by simp⟩
      · obtain ⟨ls, st1, hrun, -⟩ := runSeq_ok (processNode ctx fuel) cs HC "Timing" "" st
        have e : processNode ctx (fuel+1) ptag (.mk "Timing" tx tl ats cs) ind st =
            Except.bind (runSeq (processNode ctx fuel) "Timing" cs "" st) (fun d =>
              match d with
              | (ls0, stA) =>
                .ok ([ind ++ (if truthy tx then "*" ++ strVal tx ++ "*" else "") ++
                  String.join ls0, ""], stA)) := rfl
        rw [e, hrun]
        exact ⟨_, rfl, fun _ => by simp⟩
    by_cases h03 : (tg == "Box") = true
    ·
      rw [beq_iff_eq] at h03
      subst h03
      have Hf : ChildrenOk ctx fuel (cs.filter (fun c => c.tag != "Heading")) :=
        fun m hm => HC m (List.mem_of_mem_filter hm)
      obtain ⟨ls, st1, hrun, hne⟩ := runSeq_ok (processNode ctx fuel)
        (cs.filter (fun c => c.tag != "Heading")) Hf "Box" (ind ++ "    ") st
      have hloc2 : ((!((Node.mk "Box" tx tl ats cs).childTexts "Heading").isEmpty) ||
          cs.any (fun c => c.tag != "Heading" && neTag c.tag)) = true := hloc
      have hbufne : (match (Node.mk "Box" tx tl ats cs).childTexts "Heading" with
            | [] => ([] : List String)
            | h :: _ => [ind ++ ".. admonition:: " ++ h, ""]) ++ ls ≠ [] := by
        rcases hct : (Node.mk "Box" tx tl ats cs).childTexts "Heading" with _ | ⟨h, hs⟩
        · rw [hct] at hloc2
          simp only [List.isEmpty_nil, Bool.not_true, Bool.false_or, List.any_eq_true] at hloc2
          obtain ⟨c, hc, hcc⟩ := hloc2
          rw [Bool.and_eq_true] at hcc
          have hmem : c ∈ cs.filter (fun c => c.tag != "Heading") :=
            List.mem_filter.mpr ⟨hc, hcc.1⟩
          have hlsne := hne ⟨c, hmem, itemOk_of_neTag c hcc.2⟩
          simpa using hlsne
        · simp
      have e : processNode ctx (fuel+1) ptag (.mk "Box" tx tl ats cs) ind st =
          Except.bind (runSeq (processNode ctx fuel) "Box"
              (cs.filter (fun c => c.tag != "Heading")) (ind ++ "    ") st) (fun d =>
            match d with
            | (ls0, stA) =>
              match ((match (Node.mk "Box" tx tl ats cs).childTexts "Heading" with
            | [] => ([] : List String)
            | h :: _ => [ind ++ ".. admonition:: " ++ h, ""]) ++ ls0).getLast? with
              | none => .error "IndexError: list index out of range"
              | some last =>
                .ok ((if last != "" then (match (Node.mk "Box" tx tl ats cs).childTexts "Heading" with
            | [] => ([] : List String)
            | h :: _ => [ind ++ ".. admonition:: " ++ h, ""]) ++ ls0 ++ [""]
                  else (match (Node.mk "Box" tx tl ats cs).childTexts "Heading" with
            | [] => ([] : List String)
            | h :: _ => [ind ++ ".. admonition:: " ++ h, ""]) ++ ls0), stA)) := rfl
      rcases hlast : ((match (Node.mk "Box" tx tl ats cs).childTexts "Heading" with
            | [] => ([] : List String)
            | h :: _ => [ind ++ ".. admonition:: " ++ h, ""]) ++ ls).getLast? with _ | last
      · rw [List.getLast?_eq_none_iff] at hlast
        exact absurd hlast hbufne
      · refine ⟨((if (last != "") = true then (match (Node.mk "Box" tx tl ats cs).childTexts "Heading" with
            | [] => ([] : List String)
            | h :: _ => [ind ++ ".. admonition:: " ++ h, ""]) ++ ls ++ [""]
          else (match (Node.mk "Box" tx tl ats cs).childTexts "Heading" with
            | [] => ([] : List String)
            | h :: _ => [ind ++ ".. admonition:: " ++ h, ""]) ++ ls), st1), ?_, fun h => absurd ((show itemOk (Node.mk "Box" tx tl ats cs) = false from rfl) ▸ h) (by decide)⟩
        rw [e, hrun]
        show (match ((match (Node.mk "Box" tx tl ats cs).childTexts "Heading" with
            | [] => ([] : List String)
            | h :: _ => [ind ++ ".. admonition:: " ++ h, ""]) ++ ls).getLast? with
              | none => (.error "IndexError: list index out of range" :
                  Except String (List String × St))
              | some l2 =>
                .ok ((if (l2 != "") = true then (match (Node.mk "Box" tx tl ats cs).childTexts "Heading" with
            | [] => ([] : List String)
            | h :: _ => [ind ++ ".. admonition:: " ++ h, ""]) ++ ls ++ [""]
                  else (match (Node.mk "Box" tx tl ats cs).childTexts "Heading" with
            | [] => ([] : List String)
            | h :: _ => [ind ++ ".. admonition:: " ++ h, ""]) ++ ls), st1)) = _
        rw [hlast]
    by_cases h04 : (tg == "StudyNote") = true
    ·
      rw [beq_iff_eq] at h04
      subst h04
      obtain ⟨ls, st1, hrun, -⟩ := runSeq_ok (processNode ctx fuel) cs HC "StudyNote" (ind ++ "    ") st
      have e : processNode ctx (fuel+1) ptag (.mk "StudyNote" tx tl ats cs) ind st =
          Except.bind (runSeq (processNode ctx fuel) "StudyNote" cs (ind ++ "    ") st) (fun d =>
            match d with
            | (ls0, stA) => .ok ([ind ++ ".. note::", ""] ++ ls0, stA)) := rfl
      rw [e, hrun]
      exact ⟨_, rfl, fun _ => by simp⟩
    by_cases h05 : (tg == "Image") = true
    ·
      rw [beq_iff_eq] at h05
      subst h05
      have e : processNode ctx (fuel+1) ptag (.mk "Image" tx tl ats cs) ind st =
          (match Node.attr (.mk "Image" tx tl ats cs) "src" with
           | some s => .ok ([".. image:: " ++ afterLastBackslash s, ""], st)
           | none => .ok ([], st)) := rfl
      rcases hsrc : Node.attr (.mk "Image" tx tl ats cs) "src" with _ | s
      · rw [e, hsrc]
        exact ⟨_, rfl, fun h => absurd ((show itemOk (Node.mk "Image" tx tl ats cs) = false from rfl) ▸ h) (by decide)⟩
      · rw [e, hsrc]
        exact ⟨_, rfl, fun h => absurd ((show itemOk (Node.mk "Image" tx tl ats cs) = false from rfl) ▸ h) (by decide)⟩
    by_cases h06 : (tg == "Figure") = true
    ·
      rw [beq_iff_eq] at h06
      subst h06
      have hcaps : ((Node.mk "Figure" tx tl ats cs).childTagged "Caption").all
          (fun cap => cap.children.isEmpty) = true := hloc
      have e : processNode ctx (fuel+1) ptag (.mk "Figure" tx tl ats cs) ind st =
          (match (Node.mk "Figure" tx tl ats cs).imageSrcs with
           | [] => .ok ([], st)
           | s0 :: _ => (match (Node.mk "Figure" tx tl ats cs).childTagged "Caption" with
               | [] => (.ok ([ind ++ ".. figure:: " ++ afterLastBackslash s0, ""], st) :
                   Except String (List String × St))
               | cap :: _ =>
                 if cap.children.isEmpty then
                   .ok ([ind ++ ".. figure:: " ++ afterLastBackslash s0, ""] ++
                     [ind ++ "    " ++ (if truthy cap.text then strVal cap.text else ""), ""],
                     st)
                 else
                   Except.bind (runSeq (processNode ctx fuel) cap.tag cap.children "" st)
                     (fun _ =>
                       .error "TypeError: sequence item: expected str instance, list found"))) := rfl
      rcases hsrcs : (Node.mk "Figure" tx tl ats cs).imageSrcs with _ | ⟨s0, srest⟩
      · refine ⟨([], st), ?_, fun h => absurd ((show itemOk (Node.mk "Figure" tx tl ats cs) = false from rfl) ▸ h) (by decide)⟩
        rw [e, hsrcs]
      · rcases hcap : (Node.mk "Figure" tx tl ats cs).childTagged "Caption" with _ | ⟨cap, caps⟩
        · refine ⟨([ind ++ ".. figure:: " ++ afterLastBackslash s0, ""], st), ?_, fun h => absurd ((show itemOk (Node.mk "Figure" tx tl ats cs) = false from rfl) ▸ h) (by decide)⟩
          rw [e, hsrcs, hcap]
        · have hce : cap.children.isEmpty = true := by
            rw [List.all_eq_true] at hcaps
            exact hcaps cap (by rw [hcap]; exact List.mem_cons_self cap caps)
          have hcc : cap.children = [] := by
            rcases hx : cap.children with _ | ⟨c0, cr⟩
            · rfl
            · rw [hx, List.isEmpty_cons] at hce
              exact absurd hce (by decide)
          refine ⟨([ind ++ ".. figure:: " ++ afterLastBackslash s0, ""] ++
            [ind ++ "    " ++ (if truthy cap.text then strVal cap.text else ""), ""], st),
            ?_, fun h => absurd ((show itemOk (Node.mk "Figure" tx tl ats cs) = false from rfl) ▸ h) (by decide)⟩
          rw [e, hsrcs, hcap]
          show (if cap.children.isEmpty then
              (.ok ([ind ++ ".. figure:: " ++ afterLastBackslash s0, ""] ++
                [ind ++ "    " ++ (if truthy cap.text then strVal cap.text else ""), ""], st) :
                  Except String (List String × St))
            else
              Except.bind (runSeq (processNode ctx fuel) cap.tag cap.children "" st)
                (fun _ =>
                  .error "TypeError: sequence item: expected str instance, list found")) = _
          rw [hcc]
          rfl
    by_cases h07 : (tg == "MediaContent") = true
    ·
      rw [beq_iff_eq] at h07
      subst h07
      have key : ∃ r : List String × St,
          processNode ctx (fuel+1) ptag (.mk "MediaContent" tx tl ats cs) ind st = .ok r := by
        simp only [processNode, Node.tag]
        rw [if_neg (by decide), if_neg (by decide), if_neg (by decide), if_neg (by decide),
          if_neg (by decide), if_neg (by decide), if_pos (by decide)]
        split
        · exact ⟨([], st), rfl⟩
        · split
          · split
            · rw [exc_pure_bind]
              split
              · exact ⟨_, rfl⟩
              · next tr tail2 heq2 =>
                have htm : tr ∈ cs :=
                  List.mem_of_mem_filter (heq2.symm ▸ List.mem_cons_self tr tail2)
                obtain ⟨⟨ls1, s1⟩, hp, -⟩ :=
                  HC tr htm "MediaContent" (ind ++ "    ") ([], st).2
                rw [hp, exc_bind_ok]
                exact ⟨_, rfl⟩
            · next d tail1 heq1 =>
              have hdm : d ∈ cs :=
                List.mem_of_mem_filter (heq1.symm ▸ List.mem_cons_self d tail1)
              obtain ⟨⟨ls1, s1⟩, hp, -⟩ := HC d hdm "MediaContent" (ind ++ "    ") st
              rw [hp, exc_bind_ok]
              split
              · rw [exc_pure_bind]
                exact ⟨_, rfl⟩
              · next tr tail2 heq2 =>
                have htm : tr ∈ cs :=
                  List.mem_of_mem_filter (heq2.symm ▸ List.mem_cons_self tr tail2)
                obtain ⟨⟨ls2, s2⟩, hp2, -⟩ :=
                  HC tr htm "MediaContent" (ind ++ "    ") (ls1, s1).2
                rw [hp2, exc_bind_ok]
                exact ⟨_, rfl⟩
          · split
            · rw [exc_pure_bind]
              split
              · next heqL =>
                rw [List.getLast?_eq_none_iff] at heqL
                exact absurd heqL (by simp)
              · exact ⟨_, rfl⟩
            · next cap tailc heqc =>
              obtain ⟨ct, cx2, cl2, ca2, cc2⟩ := cap
              have hcm : Node.mk ct cx2 cl2 ca2 cc2 ∈ cs :=
                List.mem_of_mem_filter (heqc.symm ▸ List.mem_cons_self _ _)
              have Hg : ∀ m ∈ cc2, ∀ pt i : String, ∀ s2 : St,
                  ∃ r : List String × St, processNode ctx fuel pt m i s2 = .ok r ∧
                    (itemOk m = true → r.1 ≠ []) := fun m hm pt i s2 =>
                ih m pt i s2 (wfTree_descend (hkids _ hcm) hm)
              obtain ⟨ls2, st2, hrun, -⟩ :=
                runSeq_ok (processNode ctx fuel) cc2 Hg ct ind st
              simp only [Node.children]
              rw [hrun, exc_bind_ok]
              split
              · next heqL =>
                rw [List.getLast?_eq_none_iff] at heqL
                exact absurd heqL (by simp)
              · exact ⟨_, rfl⟩
      obtain ⟨r, hr⟩ := key
      exact ⟨r, hr, fun h => absurd ((show itemOk
        (Node.mk "MediaContent" tx tl ats cs) = false from rfl) ▸ h) (by decide)⟩
    by_cases h08 : (tg == "Description") = true
    ·
      rw [beq_iff_eq] at h08
      subst h08
      obtain ⟨ls, st1, hrun, -⟩ := runSeq_ok (processNode ctx fuel) cs HC "Description" (ind ++ "    ") st
      have e : processNode ctx (fuel+1) ptag (.mk "Description" tx tl ats cs) ind st =
          Except.bind (runSeq (processNode ctx fuel) "Description" cs (ind ++ "    ") st) (fun d =>
            match d with
            | (ls0, stA) => .ok ([ind ++ ".. description::", ""] ++ ls0, stA)) := rfl
      rw [e, hrun]
      exact ⟨_, rfl, fun _ => by simp⟩
    by_cases h09 : (tg == "Transcript") = true
    ·
      rw [beq_iff_eq] at h09
      subst h09
      obtain ⟨ls, st1, hrun, -⟩ := runSeq_ok (processNode ctx fuel) cs HC "Transcript" (ind ++ "    ") st
      have e : processNode ctx (fuel+1) ptag (.mk "Transcript" tx tl ats cs) ind st =
          Except.bind (runSeq (processNode ctx fuel) "Transcript" cs (ind ++ "    ") st) (fun d =>
            match d with
            | (ls0, stA) => .ok ([ind ++ ".. transcript::", ""] ++ ls0, stA)) := rfl
      rw [e, hrun]
      exact ⟨_, rfl, fun _ => by simp⟩
    by_cases h10 : (tg == "Activity") = true
    ·
      rw [beq_iff_eq] at h10
      subst h10
      have Hf : ChildrenOk ctx fuel (cs.filter (fun c => c.tag != "Heading")) :=
        fun m hm => HC m (List.mem_of_mem_filter hm)
      have e : processNode ctx (fuel+1) ptag (.mk "Activity" tx tl ats cs) ind st =
          (match (Node.mk "Activity" tx tl ats cs).childTexts "Heading" with
           | [] => .ok ([], st)
           | h :: _ =>
             Except.bind (runSeq (processNode ctx fuel) "Activity"
                 (cs.filter (fun c => c.tag != "Heading")) (ind ++ "    ") st) (fun d =>
               match d with
               | (ls0, stA) => .ok ([ind ++ ".. activity:: " ++ h, ""] ++ ls0, stA))) := rfl
      rcases hht : (Node.mk "Activity" tx tl ats cs).childTexts "Heading" with _ | ⟨h, hs⟩
      · refine ⟨([], st), ?_, fun h => absurd ((show itemOk (Node.mk "Activity" tx tl ats cs) = false from rfl) ▸ h) (by decide)⟩
        rw [e, hht]
      · obtain ⟨ls, st1, hrun, -⟩ := runSeq_ok (processNode ctx fuel)
          (cs.filter (fun c => c.tag != "Heading")) Hf "Activity" (ind ++ "    ") st
        refine ⟨([ind ++ ".. activity:: " ++ h, ""] ++ ls, st1), ?_, fun h => absurd ((show itemOk (Node.mk "Activity" tx tl ats cs) = false from rfl) ▸ h) (by decide)⟩
        rw [e, hht]
        show Except.bind (runSeq (processNode ctx fuel) "Activity"
            (cs.filter (fun c => c.tag != "Heading")) (ind ++ "    ") st) _ = _
        rw [hrun]
        rfl
    by_cases h11 : (tg == "Question") = true
    ·
      rw [beq_iff_eq] at h11
      subst h11
      obtain ⟨ls, st1, hrun, -⟩ := runSeq_ok (processNode ctx fuel) cs HC "Question" ind st
      have e : processNode ctx (fuel+1) ptag (.mk "Question" tx tl ats cs) ind st =
          Except.bind (runSeq (processNode ctx fuel) "Question" cs ind st) (fun d =>
            match d with
            | (ls0, stA) => .ok (ls0, stA)) := rfl
      rw [e, hrun]
      exact ⟨_, rfl, fun h => absurd ((show itemOk (Node.mk "Question" tx tl ats cs) = false from rfl) ▸ h) (by decide)⟩
    by_cases h12 : (tg == "Answer") = true
    ·
      rw [beq_iff_eq] at h12
      subst h12
      obtain ⟨ls, st1, hrun, -⟩ := runSeq_ok (processNode ctx fuel) cs HC "Answer" (ind ++ "    ") st
      have e : processNode ctx (fuel+1) ptag (.mk "Answer" tx tl ats cs) ind st =
          Except.bind (runSeq (processNode ctx fuel) "Answer" cs (ind ++ "    ") st) (fun d =>
            match d with
            | (ls0, stA) => .ok ([ind ++ ".. activity-answer::", ""] ++ ls0, stA)) := rfl
      rw [e, hrun]
      exact ⟨_, rfl, fun _ => by simp⟩
    by_cases h13 : (tg == "Quote") = true
    ·
      rw [beq_iff_eq] at h13
      subst h13
      obtain ⟨ls, st1, hrun, -⟩ := runSeq_ok (processNode ctx fuel) cs HC "Quote" (ind ++ "    ") st
      have e : processNode ctx (fuel+1) ptag (.mk "Quote" tx tl ats cs) ind st =
          Except.bind (runSeq (processNode ctx fuel) "Quote" cs (ind ++ "    ") st) (fun d =>
            match d with
            | (ls0, stA) => .ok (ls0, stA)) := rfl
      rw [e, hrun]
      exact ⟨_, rfl, fun h => absurd ((show itemOk (Node.mk "Quote" tx tl ats cs) = false from rfl) ▸ h) (by decide)⟩
    by_cases h14 : (tg == "SourceReference") = true
    ·
      rw [beq_iff_eq] at h14
      subst h14
      obtain ⟨ls, st1, hrun, -⟩ := runSeq_ok (processNode ctx fuel) cs HC "SourceReference" "" st
      have e : processNode ctx (fuel+1) ptag (.mk "SourceReference" tx tl ats cs) ind st =
          Except.bind (runSeq (processNode ctx fuel) "SourceReference" cs "" st) (fun d =>
            match d with
            | (ls0, stA) =>
              .ok ([ind ++ "-- " ++ (if truthy tx then strVal tx else "") ++
                String.join ls0, ""], stA)) := rfl
      rw [e, hrun]
      exact ⟨_, rfl, fun _ => by simp⟩
    by_cases h15 : (tg == "Reference") = true
    ·
      rw [beq_iff_eq] at h15
      subst h15
      have e : processNode ctx (fuel+1) ptag (.mk "Reference" tx tl ats cs) ind st =
          (if truthy tx = true then
            Except.bind (runSeq (processNode ctx fuel) "Reference" cs "" st) (fun d =>
              match d with
              | (ls0, stA) =>
                .ok ([".. [" ++ pyStrip (strVal tx) ++ "] " ++ strVal tx ++
                  String.join ls0, ""], stA))
           else .ok ([], st)) := rfl
      cases htr : truthy tx
      · refine ⟨([], st), ?_, fun h => absurd ((show itemOk (Node.mk "Reference" tx tl ats cs) = false from rfl) ▸ h) (by decide)⟩
        rw [e, htr, if_neg (by decide)]
      · obtain ⟨ls, st1, hrun, -⟩ := runSeq_ok (processNode ctx fuel) cs HC "Reference" "" st
        refine ⟨([".. [" ++ pyStrip (strVal tx) ++ "] " ++ strVal tx ++
          String.join ls, ""], st1), ?_, fun h => absurd ((show itemOk (Node.mk "Reference" tx tl ats cs) = false from rfl) ▸ h) (by decide)⟩
        rw [e, htr, if_pos rfl]
        show Except.bind (runSeq (processNode ctx fuel) "Reference" cs "" st) _ = _
        rw [hrun]
        rfl
    by_cases h16 : (tg == "BulletedList" || tg == "BulletedSubsidiaryList" || tg == "UnNumberedList" || tg == "UnNumberedSubsidiaryList" || tg == "NumberedList") = true
    ·
      simp only [Bool.or_eq_true, beq_iff_eq] at h16
      rcases h16 with ((((rfl | rfl) | rfl) | rfl) | rfl)
      · obtain ⟨ls, st1, hrun, hne⟩ := runSeq_ok (processNode ctx fuel) cs HC "BulletedList" ind st
        have hloc2 : cs.any itemOk = true := hloc
        have hlsne : ls ≠ [] := by
          rw [List.any_eq_true] at hloc2
          obtain ⟨c, hc, hio⟩ := hloc2
          exact hne ⟨c, hc, hio⟩
        have e : processNode ctx (fuel+1) ptag (.mk "BulletedList" tx tl ats cs) ind st =
            Except.bind (runSeq (processNode ctx fuel) "BulletedList" cs ind st) (fun d =>
              match d with
              | (ls0, stA) =>
                match ls0.getLast? with
                | none => .error "IndexError: list index out of range"
                | some last => .ok ((if last != "" then ls0 ++ [""] else ls0), stA)) := rfl
        rcases hlast : ls.getLast? with _ | last
        · rw [List.getLast?_eq_none_iff] at hlast
          exact absurd hlast hlsne
        · refine ⟨((if (last != "") = true then ls ++ [""] else ls), st1), ?_,
            fun h => absurd ((show itemOk (Node.mk "BulletedList" tx tl ats cs) = false from rfl) ▸ h) (by decide)⟩
          rw [e, hrun]
          show (match ls.getLast? with
                | none => (.error "IndexError: list index out of range" :
                    Except String (List String × St))
                | some l2 => .ok ((if (l2 != "") = true then ls ++ [""] else ls), st1)) = _
          rw [hlast]
      · obtain ⟨ls, st1, hrun, hne⟩ := runSeq_ok (processNode ctx fuel) cs HC "BulletedSubsidiaryList" ind st
        have hloc2 : cs.any itemOk = true := hloc
        have hlsne : ls ≠ [] := by
          rw [List.any_eq_true] at hloc2
          obtain ⟨c, hc, hio⟩ := hloc2
          exact hne ⟨c, hc, hio⟩
        have e : processNode ctx (fuel+1) ptag (.mk "BulletedSubsidiaryList" tx tl ats cs) ind st =
            Except.bind (runSeq (processNode ctx fuel) "BulletedSubsidiaryList" cs ind st) (fun d =>
              match d with
              | (ls0, stA) =>
                match ls0.getLast? with
                | none => .error "IndexError: list index out of range"
                | some last => .ok ((if last != "" then ls0 ++ [""] else ls0), stA)) := rfl
        rcases hlast : ls.getLast? with _ | last
        · rw [List.getLast?_eq_none_iff] at hlast
          exact absurd hlast hlsne
        · refine ⟨((if (last != "") = true then ls ++ [""] else ls), st1), ?_,
            fun h => absurd ((show itemOk (Node.mk "BulletedSubsidiaryList" tx tl ats cs) = false from rfl) ▸ h) (by decide)⟩
          rw [e, hrun]
          show (match ls.getLast? with
                | none => (.error "IndexError: list index out of range" :
                    Except String (List String × St))
                | some l2 => .ok ((if (l2 != "") = true then ls ++ [""] else ls), st1)) = _
          rw [hlast]
      · obtain ⟨ls, st1, hrun, hne⟩ := runSeq_ok (processNode ctx fuel) cs HC "UnNumberedList" ind st
        have hloc2 : cs.any itemOk = true := hloc
        have hlsne : ls ≠ [] := by
          rw [List.any_eq_true] at hloc2
          obtain ⟨c, hc, hio⟩ := hloc2
          exact hne ⟨c, hc, hio⟩
        have e : processNode ctx (fuel+1) ptag (.mk "UnNumberedList" tx tl ats cs) ind st =
            Except.bind (runSeq (processNode ctx fuel) "UnNumberedList" cs ind st) (fun d =>
              match d with
              | (ls0, stA) =>
                match ls0.getLast? with
                | none => .error "IndexError: list index out of range"
                | some last => .ok ((if last != "" then ls0 ++ [""] else ls0), stA)) := rfl
        rcases hlast : ls.getLast? with _ | last
        · rw [List.getLast?_eq_none_iff] at hlast
          exact absurd hlast hlsne
        · refine ⟨((if (last != "") = true then ls ++ [""] else ls), st1), ?_,
            fun h => absurd ((show itemOk (Node.mk "UnNumberedList" tx tl ats cs) = false from rfl) ▸ h) (by decide)⟩
          rw [e, hrun]
          show (match ls.getLast? with
                | none => (.error "IndexError: list index out of range" :
                    Except String (List String × St))
                | some l2 => .ok ((if (l2 != "") = true then ls ++ [""] else ls), st1)) = _
          rw [hlast]
      · obtain ⟨ls, st1, hrun, hne⟩ := runSeq_ok (processNode ctx fuel) cs HC "UnNumberedSubsidiaryList" ind st
        have hloc2 : cs.any itemOk = true := hloc
        have hlsne : ls ≠ [] := by
          rw [List.any_eq_true] at hloc2
          obtain ⟨c, hc, hio⟩ := hloc2
          exact hne ⟨c, hc, hio⟩
        have e : processNode ctx (fuel+1) ptag (.mk "UnNumberedSubsidiaryList" tx tl ats cs) ind st =
            Except.bind (runSeq (processNode ctx fuel) "UnNumberedSubsidiaryList" cs ind st) (fun d =>
              match d with
              | (ls0, stA) =>
                match ls0.getLast? with
                | none => .error "IndexError: list index out of range"
                | some last => .ok ((if last != "" then ls0 ++ [""] else ls0), stA)) := rfl
        rcases hlast : ls.getLast? with _ | last
        · rw [List.getLast?_eq_none_iff] at hlast
          exact absurd hlast hlsne
        · refine ⟨((if (last != "") = true then ls ++ [""] else ls), st1), ?_,
            fun h => absurd ((show itemOk (Node.mk "UnNumberedSubsidiaryList" tx tl ats cs) = false from rfl) ▸ h) (by decide)⟩
          rw [e, hrun]
          show (match ls.getLast? with
                | none => (.error "IndexError: list index out of range" :
                    Except String (List String × St))
                | some l2 => .ok ((if (l2 != "") = true then ls ++ [""] else ls), st1)) = _
          rw [hlast]
      · obtain ⟨ls, st1, hrun, hne⟩ := runSeq_ok (processNode ctx fuel) cs HC "NumberedList" ind st
        have hloc2 : cs.any itemOk = true := hloc
        have hlsne : ls ≠ [] := by
          rw [List.any_eq_true] at hloc2
          obtain ⟨c, hc, hio⟩ := hloc2
          exact hne ⟨c, hc, hio⟩
        have e : processNode ctx (fuel+1) ptag (.mk "NumberedList" tx tl ats cs) ind st =
            Except.bind (runSeq (processNode ctx fuel) "NumberedList" cs ind st) (fun d =>
              match d with
              | (ls0, stA) =>
                match ls0.getLast? with
                | none => .error "IndexError: list index out of range"
                | some last => .ok ((if last != "" then ls0 ++ [""] else ls0), stA)) := rfl
        rcases hlast : ls.getLast? with _ | last
        · rw [List.getLast?_eq_none_iff] at hlast
          exact absurd hlast hlsne
        · refine ⟨((if (last != "") = true then ls ++ [""] else ls), st1), ?_,
            fun h => absurd ((show itemOk (Node.mk "NumberedList" tx tl ats cs) = false from rfl) ▸ h) (by decide)⟩
          rw [e, hrun]
          show (match ls.getLast? with
                | none => (.error "IndexError: list index out of range" :
                    Except String (List String × St))
                | some l2 => .ok ((if (l2 != "") = true then ls ++ [""] else ls), st1)) = _
          rw [hlast]
    by_cases h17 : (tg == "ListItem" || tg == "SubListItem") = true
    ·
      simp only [Bool.or_eq_true, beq_iff_eq] at h17
      rcases h17 with rfl | rfl
      · have e : processNode ctx (fuel+1) ptag (.mk "ListItem" tx tl ats cs) ind st =
            (if truthy tx = true then
              Except.bind (runSeq (processNode ctx fuel) "ListItem" cs "" st) (fun d =>
                match d with
                | (ls0, stA) =>
                  .ok ([ind ++ (if ptag == "NumberedList" then "#. " else "* ") ++
                    strVal tx ++ String.join ls0], stA))
             else
              runItems (processNode ctx fuel) "ListItem" cs ind
                (if ptag == "NumberedList" then "#. " else "* ") true st) := rfl
        cases htr : truthy tx
        · obtain ⟨ls, st1, hrun, hne⟩ := runItems_ok (processNode ctx fuel) cs HC "ListItem" ind
            (if ptag == "NumberedList" then "#. " else "* ") true st
          refine ⟨(ls, st1), ?_, ?_⟩
          · rw [e, htr, if_neg (by decide)]
            exact hrun
          · intro hio
            have hio2 : (truthy tx || cs.any (fun g => neTag g.tag)) = true := hio
            rw [htr, Bool.false_or, List.any_eq_true] at hio2
            obtain ⟨g, hg, hgne⟩ := hio2
            exact hne ⟨g, hg, itemOk_of_neTag g hgne⟩
        · obtain ⟨ls, st1, hrun, -⟩ := runSeq_ok (processNode ctx fuel) cs HC "ListItem" "" st
          refine ⟨([ind ++ (if ptag == "NumberedList" then "#. " else "* ") ++
            strVal tx ++ String.join ls], st1), ?_, fun _ => by simp⟩
          rw [e, htr, if_pos rfl]
          show Except.bind (runSeq (processNode ctx fuel) "ListItem" cs "" st) _ = _
          rw [hrun]
          rfl
      · have e : processNode ctx (fuel+1) ptag (.mk "SubListItem" tx tl ats cs) ind st =
            (if truthy tx = true then
              Except.bind (runSeq (processNode ctx fuel) "SubListItem" cs "" st) (fun d =>
                match d with
                | (ls0, stA) =>
                  .ok ([ind ++ (if ptag == "NumberedList" then "#. " else "* ") ++
                    strVal tx ++ String.join ls0], stA))
             else
              runItems (processNode ctx fuel) "SubListItem" cs ind
                (if ptag == "NumberedList" then "#. " else "* ") true st) := rfl
        cases htr : truthy tx
        · obtain ⟨ls, st1, hrun, hne⟩ := runItems_ok (processNode ctx fuel) cs HC "SubListItem" ind
            (if ptag == "NumberedList" then "#. " else "* ") true st
          refine ⟨(ls, st1), ?_, ?_⟩
          · rw [e, htr, if_neg (by decide)]
            exact hrun
          · intro hio
            have hio2 : (truthy tx || cs.any (fun g => neTag g.tag)) = true := hio
            rw [htr, Bool.false_or, List.any_eq_true] at hio2
            obtain ⟨g, hg, hgne⟩ := hio2
            exact hne ⟨g, hg, itemOk_of_neTag g hgne⟩
        · obtain ⟨ls, st1, hrun, -⟩ := runSeq_ok (processNode ctx fuel) cs HC "SubListItem" "" st
          refine ⟨([ind ++ (if ptag == "NumberedList" then "#. " else "* ") ++
            strVal tx ++ String.join ls], st1), ?_, fun _ => by simp⟩
          rw [e, htr, if_pos rfl]
          show Except.bind (runSeq (processNode ctx fuel) "SubListItem" cs "" st) _ = _
          rw [hrun]
          rfl
    by_cases h18 : (tg == "ComputerCode") = true
    ·
      rw [beq_iff_eq] at h18
      subst h18
      have e : processNode ctx (fuel+1) ptag (.mk "ComputerCode" tx tl ats cs) ind st =
          (if (truthy tx && !(pyStrip (strVal tx)).data.isEmpty &&
              containsChar (strVal tx) '\n') = true then
            .ok ([String.intercalate "\n" ([ind ++ ".. sourcecode::", ""] ++
              (splitChar '\n' (strVal tx)).map (fun l => ind ++ "    " ++ l))], st)
          else
            (match fixPair tx tl with
             | (tx2, tl2) =>
               .ok ((if truthy tx2 then ["``" ++ strVal tx2 ++ "``"] else []) ++
                 optTail tl2, st))) := rfl
      cases hb : (truthy tx && !(pyStrip (strVal tx)).data.isEmpty &&
          containsChar (strVal tx) '\n')
      · rcases hfp : fixPair tx tl with ⟨tx2, tl2⟩
        refine ⟨((if truthy tx2 then ["``" ++ strVal tx2 ++ "``"] else []) ++ optTail tl2,
          st), ?_, fun h => absurd ((show itemOk (Node.mk "ComputerCode" tx tl ats cs) = false from rfl) ▸ h) (by decide)⟩
        rw [e, hb, if_neg (by decide)]
        show (match fixPair tx tl with
              | (tx2, tl2) =>
                (.ok ((if truthy tx2 then ["``" ++ strVal tx2 ++ "``"] else []) ++
                  optTail tl2, st) : Except String (List String × St))) = _
        rw [hfp]
      · refine ⟨([String.intercalate "\n" ([ind ++ ".. sourcecode::", ""] ++
          (splitChar '\n' (strVal tx)).map (fun l => ind ++ "    " ++ l))], st), ?_,
          fun h => absurd ((show itemOk (Node.mk "ComputerCode" tx tl ats cs) = false from rfl) ▸ h) (by decide)⟩
        rw [e, hb, if_pos rfl]
    by_cases h19 : (tg == "ComputerDisplay") = true
    ·
      rw [beq_iff_eq] at h19
      subst h19
      have e : processNode ctx (fuel+1) ptag (.mk "ComputerDisplay" tx tl ats cs) ind st =
          (if (truthy tx && !(pyStrip (strVal tx)).data.isEmpty &&
              containsChar (strVal tx) '\n') = true then
            .ok ([String.intercalate "\n" ([ind ++ ".. sourcecode::", ""] ++
              (splitChar '\n' (strVal tx)).map (fun l => ind ++ "    " ++ l))], st)
          else if (!((Node.mk "ComputerDisplay" tx tl ats cs).childTagged "Paragraph").isEmpty) = true then
            Except.bind (runSeq (processNode ctx fuel) "ComputerDisplay" cs (ind ++ "    ") st) (fun d =>
              match d with
              | (ls0, stA) => .ok ([ind ++ ".. sourcecode::", ""] ++ ls0, stA))
          else if truthy tx = true then
            (match fixPair tx tl with
             | (tx2, tl2) => .ok (["``" ++ strVal tx2 ++ "``"] ++ optTail tl2, st))
          else .ok (optTail tl, st)) := rfl
      cases hb : (truthy tx && !(pyStrip (strVal tx)).data.isEmpty &&
          containsChar (strVal tx) '\n')
      · cases hpe : ((Node.mk "ComputerDisplay" tx tl ats cs).childTagged "Paragraph").isEmpty
        · obtain ⟨ls, st1, hrun, -⟩ := runSeq_ok (processNode ctx fuel) cs HC "ComputerDisplay"
            (ind ++ "    ") st
          refine ⟨([ind ++ ".. sourcecode::", ""] ++ ls, st1), ?_, fun h => absurd ((show itemOk (Node.mk "ComputerDisplay" tx tl ats cs) = false from rfl) ▸ h) (by decide)⟩
          rw [e, hb, if_neg (by decide), hpe, if_pos (by decide)]
          show Except.bind (runSeq (processNode ctx fuel) "ComputerDisplay" cs (ind ++ "    ") st) _ = _
          rw [hrun]
          rfl
        · cases htr : truthy tx
          · refine ⟨(optTail tl, st), ?_, fun h => absurd ((show itemOk (Node.mk "ComputerDisplay" tx tl ats cs) = false from rfl) ▸ h) (by decide)⟩
            rw [e, hb, if_neg (by decide), hpe, if_neg (by decide), htr, if_neg (by decide)]
          · rcases hfp : fixPair tx tl with ⟨tx2, tl2⟩
            refine ⟨(["``" ++ strVal tx2 ++ "``"] ++ optTail tl2, st), ?_, fun h => absurd ((show itemOk (Node.mk "ComputerDisplay" tx tl ats cs) = false from rfl) ▸ h) (by decide)⟩
            rw [e, hb, if_neg (by decide), hpe, if_neg (by decide), htr, if_pos rfl]
            show (match fixPair tx tl with
                  | (tx2, tl2) =>
                    (.ok (["``" ++ strVal tx2 ++ "``"] ++ optTail tl2, st) :
                      Except String (List String × St))) = _
            rw [hfp]
      · refine ⟨([String.intercalate "\n" ([ind ++ ".. sourcecode::", ""] ++
          (splitChar '\n' (strVal tx)).map (fun l => ind ++ "    " ++ l))], st), ?_,
          fun h => absurd ((show itemOk (Node.mk "ComputerDisplay" tx tl ats cs) = false from rfl) ▸ h) (by decide)⟩
        rw [e, hb, if_pos rfl]
    by_cases h20 : (tg == "ComputerUI") = true
    ·
      rw [beq_iff_eq] at h20
      subst h20
      have e : processNode ctx (fuel+1) ptag (.mk "ComputerUI" tx tl ats cs) ind st =
          (if (truthy tx && !(pyStrip (strVal tx)).data.isEmpty &&
              containsChar (strVal tx) '\n') = true then
            .ok ([String.intercalate "\n" ([ind ++ ".. sourcecode::", ""] ++
              (splitChar '\n' (strVal tx)).map (fun l => ind ++ "    " ++ l))], st)
          else if (!((Node.mk "ComputerUI" tx tl ats cs).childTagged "Paragraph").isEmpty) = true then
            Except.bind (runSeq (processNode ctx fuel) "ComputerUI" cs (ind ++ "    ") st) (fun d =>
              match d with
              | (ls0, stA) => .ok ([ind ++ ".. sourcecode::", ""] ++ ls0, stA))
          else if truthy tx = true then
            (match fixPair tx tl with
             | (tx2, tl2) => .ok (["``" ++ strVal tx2 ++ "``"] ++ optTail tl2, st))
          else .ok (optTail tl, st)) := rfl
      cases hb : (truthy tx && !(pyStrip (strVal tx)).data.isEmpty &&
          containsChar (strVal tx) '\n')
      · cases hpe : ((Node.mk "ComputerUI" tx tl ats cs).childTagged "Paragraph").isEmpty
        · obtain ⟨ls, st1, hrun, -⟩ := runSeq_ok (processNode ctx fuel) cs HC "ComputerUI"
            (ind ++ "    ") st
          refine ⟨([ind ++ ".. sourcecode::", ""] ++ ls, st1), ?_, fun h => absurd ((show itemOk (Node.mk "ComputerUI" tx tl ats cs) = false from rfl) ▸ h) (by decide)⟩
          rw [e, hb, if_neg (by decide), hpe, if_pos (by decide)]
          show Except.bind (runSeq (processNode ctx fuel) "ComputerUI" cs (ind ++ "    ") st) _ = _
          rw [hrun]
          rfl
        · cases htr : truthy tx
          · refine ⟨(optTail tl, st), ?_, fun h => absurd ((show itemOk (Node.mk "ComputerUI" tx tl ats cs) = false from rfl) ▸ h) (by decide)⟩
            rw [e, hb, if_neg (by decide), hpe, if_neg (by decide), htr, if_neg (by decide)]
          · rcases hfp : fixPair tx tl with ⟨tx2, tl2⟩
            refine ⟨(["``" ++ strVal tx2 ++ "``"] ++ optTail tl2, st), ?_, fun h => absurd ((show itemOk (Node.mk "ComputerUI" tx tl ats cs) = false from rfl) ▸ h) (by decide)⟩
            rw [e, hb, if_neg (by decide), hpe, if_neg (by decide), htr, if_pos rfl]
            show (match fixPair tx tl with
                  | (tx2, tl2) =>
                    (.ok (["``" ++ strVal tx2 ++ "``"] ++ optTail tl2, st) :
                      Except String (List String × St))) = _
            rw [hfp]
      · refine ⟨([String.intercalate "\n" ([ind ++ ".. sourcecode::", ""] ++
          (splitChar '\n' (strVal tx)).map (fun l => ind ++ "    " ++ l))], st), ?_,
          fun h => absurd ((show itemOk (Node.mk "ComputerUI" tx tl ats cs) = false from rfl) ▸ h) (by decide)⟩
        rw [e, hb, if_pos rfl]
    by_cases h21 : (tg == "Equation") = true
    ·
      rw [beq_iff_eq] at h21
      subst h21
      have hml : (!((Node.mk "Equation" tx tl ats cs).childTagged "MathML").isEmpty) = true :=
        hloc
      have e : processNode ctx (fuel+1) ptag (.mk "Equation" tx tl ats cs) ind st =
          (match (Node.mk "Equation" tx tl ats cs).childTagged "MathML" with
           | [] => .error "IndexError: list index out of range"
           | m0 :: _ =>
             match ctx.translate m0 with
             | some mathStr => .ok ([ind ++ mathRewrite mathStr, ""], st)
             | none => .ok ([], st)) := rfl
      rcases hm : (Node.mk "Equation" tx tl ats cs).childTagged "MathML" with _ | ⟨m, ms⟩
      · rw [hm] at hml
        exact absurd hml (by decide)
      · rcases htr : ctx.translate m with _ | mstr
        · refine ⟨([], st), ?_, fun h => absurd ((show itemOk (Node.mk "Equation" tx tl ats cs) = false from rfl) ▸ h) (by decide)⟩
          rw [e, hm]
          show (match ctx.translate m with
                | some mathStr => (.ok ([ind ++ mathRewrite mathStr, ""], st) :
                    Except String (List String × St))
                | none => .ok ([], st)) = _
          rw [htr]
        · refine ⟨([ind ++ mathRewrite mstr, ""], st), ?_, fun h => absurd ((show itemOk (Node.mk "Equation" tx tl ats cs) = false from rfl) ▸ h) (by decide)⟩
          rw [e, hm]
          show (match ctx.translate m with
                | some mathStr => (.ok ([ind ++ mathRewrite mathStr, ""], st) :
                    Except String (List String × St))
                | none => .ok ([], st)) = _
          rw [htr]
    by_cases h22 : (tg == "Reading") = true
    ·
      rw [beq_iff_eq] at h22
      subst h22
      obtain ⟨ls, st1, hrun, -⟩ := runSeq_ok (processNode ctx fuel) cs HC "Reading" (ind ++ "    ") st
      have e : processNode ctx (fuel+1) ptag (.mk "Reading" tx tl ats cs) ind st =
          Except.bind (runSeq (processNode ctx fuel) "Reading" cs (ind ++ "    ") st) (fun d =>
            match d with
            | (ls0, stA) => .ok (ls0, stA)) := rfl
      rw [e, hrun]
      exact ⟨_, rfl, fun h => absurd ((show itemOk (Node.mk "Reading" tx tl ats cs) = false from rfl) ▸ h) (by decide)⟩
    by_cases h23 : (tg == "InternalSection" || tg == "SubSection") = true
    ·
      simp only [Bool.or_eq_true, beq_iff_eq] at h23
      rcases h23 with rfl | rfl
      · obtain ⟨ls, st1, hrun, -⟩ := runSeq_ok (processNode ctx fuel) cs HC "InternalSection" ind st
        have e : processNode ctx (fuel+1) ptag (.mk "InternalSection" tx tl ats cs) ind st =
            Except.bind (runSeq (processNode ctx fuel) "InternalSection" cs ind st) (fun d =>
              match d with
              | (ls0, stA) => .ok (ls0, stA)) := rfl
        rw [e, hrun]
        exact ⟨_, rfl, fun h => absurd ((show itemOk (Node.mk "InternalSection" tx tl ats cs) = false from rfl) ▸ h) (by decide)⟩
      · obtain ⟨ls, st1, hrun, -⟩ := runSeq_ok (processNode ctx fuel) cs HC "SubSection" ind st
        have e : processNode ctx (fuel+1) ptag (.mk "SubSection" tx tl ats cs) ind st =
            Except.bind (runSeq (processNode ctx fuel) "SubSection" cs ind st) (fun d =>
              match d with
              | (ls0, stA) => .ok (ls0, stA)) := rfl
        rw [e, hrun]
        exact ⟨_, rfl, fun h => absurd ((show itemOk (Node.mk "SubSection" tx tl ats cs) = false from rfl) ▸ h) (by decide)⟩
    by_cases h24 : (tg == "Table") = true
    ·
      rw [beq_iff_eq] at h24
      subst h24
      have Hrows : ∀ r ∈ (Node.mk "Table" tx tl ats cs).tbodyRows, ∀ c ∈ r.rowCells,
          ∀ m ∈ c.children, ∀ pt i : String, ∀ s : St,
          ∃ res : List String × St, processNode ctx fuel pt m i s = .ok res ∧
            (itemOk m = true → res.1 ≠ []) := by
        intro r hr c hc m hm pt i s
        rw [Node.tbodyRows, List.mem_flatMap] at hr
        obtain ⟨tb, htb, hrtb⟩ := hr
        have hwtb : wfTree fuel tb = true := hkids tb (List.mem_of_mem_filter htb)
        have hwr : wfTree fuel r = true := wfTree_descend hwtb (List.mem_of_mem_filter hrtb)
        have hwc : wfTree fuel c = true := wfTree_descend hwr (List.mem_of_mem_filter hc)
        exact ih m pt i s (wfTree_descend hwc hm)
      obtain ⟨cl, st1, hrows⟩ := runRows_ok (processNode ctx fuel) ind
        (Node.mk "Table" tx tl ats cs).tbodyRows Hrows st
      have e : processNode ctx (fuel+1) ptag (.mk "Table" tx tl ats cs) ind st =
          Except.bind (runRows (processNode ctx fuel) ind
              (Node.mk "Table" tx tl ats cs).tbodyRows st) (fun d =>
            match d with
            | (cellLines, stA) =>
              .ok ([match (Node.mk "Table" tx tl ats cs).childTagged "TableHead" with
                    | [] => ind ++ ".. list-table:: "
                    | h :: _ => ind ++ ".. list-table:: " ++ pyStr h.text] ++
                (if (Node.mk "Table" tx tl ats cs).tbodyRows.any Node.hasThChild then
                  [ind ++ "    :header-rows: " ++
                    toString (((Node.mk "Table" tx tl ats cs).tbodyRows.filter
                      Node.hasThChild).length)]
                 else []) ++ [""] ++ cellLines ++ [""], stA)) := rfl
      refine ⟨([match (Node.mk "Table" tx tl ats cs).childTagged "TableHead" with
            | [] => ind ++ ".. list-table:: "
            | h :: _ => ind ++ ".. list-table:: " ++ pyStr h.text] ++
        (if (Node.mk "Table" tx tl ats cs).tbodyRows.any Node.hasThChild then
          [ind ++ "    :header-rows: " ++
            toString (((Node.mk "Table" tx tl ats cs).tbodyRows.filter
              Node.hasThChild).length)]
         else []) ++ [""] ++ cl ++ [""], st1), ?_, fun _ => by simp⟩
      rw [e, hrows]
      rfl
    by_cases h25 : (tg == "i") = true
    ·
      rw [beq_iff_eq] at h25
      subst h25
      have e : processNode ctx (fuel+1) ptag (.mk "i" tx tl ats cs) ind st =
          (if truthy tx = true then
            (match fixPair tx tl with
             | (tx2, tl2) => .ok (["*" ++ strVal tx2 ++ "*"] ++ optTail tl2, st))
           else .ok (optTail tl, st)) := rfl
      cases htr : truthy tx
      · refine ⟨(optTail tl, st), ?_, fun h => absurd ((show itemOk (Node.mk "i" tx tl ats cs) = false from rfl) ▸ h) (by decide)⟩
        rw [e, htr, if_neg (by decide)]
      · rcases hfp : fixPair tx tl with ⟨tx2, tl2⟩
        refine ⟨(["*" ++ strVal tx2 ++ "*"] ++ optTail tl2, st), ?_, fun h => absurd ((show itemOk (Node.mk "i" tx tl ats cs) = false from rfl) ▸ h) (by decide)⟩
        rw [e, htr, if_pos rfl]
        show (match fixPair tx tl with
              | (tx2, tl2) =>
                (.ok (["*" ++ strVal tx2 ++ "*"] ++ optTail tl2, st) :
                  Except String (List String × St))) = _
        rw [hfp]
    by_cases h26 : (tg == "b") = true
    ·
      rw [beq_iff_eq] at h26
      subst h26
      have e : processNode ctx (fuel+1) ptag (.mk "b" tx tl ats cs) ind st =
          (if truthy tx = true then
            (match fixPair tx tl with
             | (tx2, tl2) => .ok (["**" ++ strVal tx2 ++ "**"] ++ optTail tl2, st))
           else .ok (optTail tl, st)) := rfl
      cases htr : truthy tx
      · refine ⟨(optTail tl, st), ?_, fun h => absurd ((show itemOk (Node.mk "b" tx tl ats cs) = false from rfl) ▸ h) (by decide)⟩
        rw [e, htr, if_neg (by decide)]
      · rcases hfp : fixPair tx tl with ⟨tx2, tl2⟩
        refine ⟨(["**" ++ strVal tx2 ++ "**"] ++ optTail tl2, st), ?_, fun h => absurd ((show itemOk (Node.mk "b" tx tl ats cs) = false from rfl) ▸ h) (by decide)⟩
        rw [e, htr, if_pos rfl]
        show (match fixPair tx tl with
              | (tx2, tl2) =>
                (.ok (["**" ++ strVal tx2 ++ "**"] ++ optTail tl2, st) :
                  Except String (List String × St))) = _
        rw [hfp]
    by_cases h27 : (tg == "a") = true
    ·
      rw [beq_iff_eq] at h27
      subst h27
      have e : processNode ctx (fuel+1) ptag (.mk "a" tx tl ats cs) ind st =
          (if (truthy tx && (Node.attr (.mk "a" tx tl ats cs) "href").isSome) = true then
            (match fixPair tx tl with
             | (tx2, tl2) =>
               .ok (["`" ++ strVal tx2 ++ " <" ++
                 strVal (Node.attr (.mk "a" tx tl ats cs) "href") ++ ">`_"] ++
                 optTail tl2, st))
           else .ok (optTail tl, st)) := rfl
      cases hb : (truthy tx && (Node.attr (.mk "a" tx tl ats cs) "href").isSome)
      · refine ⟨(optTail tl, st), ?_, fun h => absurd ((show itemOk (Node.mk "a" tx tl ats cs) = false from rfl) ▸ h) (by decide)⟩
        rw [e, hb, if_neg (by decide)]
      · rcases hfp : fixPair tx tl with ⟨tx2, tl2⟩
        refine ⟨(["`" ++ strVal tx2 ++ " <" ++
          strVal (Node.attr (.mk "a" tx tl ats cs) "href") ++ ">`_"] ++ optTail tl2, st),
          ?_, fun h => absurd ((show itemOk (Node.mk "a" tx tl ats cs) = false from rfl) ▸ h) (by decide)⟩
        rw [e, hb, if_pos rfl]
        show (match fixPair tx tl with
              | (tx2, tl2) =>
                (.ok (["`" ++ strVal tx2 ++ " <" ++
                  strVal (Node.attr (.mk "a" tx tl ats cs) "href") ++ ">`_"] ++
                  optTail tl2, st) : Except String (List String × St))) = _
        rw [hfp]
    by_cases h28 : (tg == "olink") = true
    ·
      rw [beq_iff_eq] at h28
      subst h28
      have e : processNode ctx (fuel+1) ptag (.mk "olink" tx tl ats cs) ind st =
          (if (truthy tx && (Node.attr (.mk "olink" tx tl ats cs) "targetdoc").isSome) = true
           then
            (match fixPair tx tl with
             | (tx2, tl2) =>
               .ok ([":doc:`" ++ strVal tx2 ++ " </" ++
                 String.intercalate "/" (match (splitChar ',' (strVal (Node.attr (.mk "olink" tx tl ats cs) "targetdoc"))).map
                  (fun p => removeSpaces (pyLower (pyStrip p))) with
                | [] => [ctx.defaultBlock, ctx.defaultPart]
                | t0 :: _ =>
                  if !pyStartsWith t0 "block" then
                    if !pyStartsWith t0 "part" then
                      ctx.defaultBlock :: ctx.defaultPart ::
                        (splitChar ',' (strVal (Node.attr (.mk "olink" tx tl ats cs)
                          "targetdoc"))).map (fun p => removeSpaces (pyLower (pyStrip p)))
                    else
                      ctx.defaultBlock ::
                        (splitChar ',' (strVal (Node.attr (.mk "olink" tx tl ats cs)
                          "targetdoc"))).map (fun p => removeSpaces (pyLower (pyStrip p)))
                  else
                    (splitChar ',' (strVal (Node.attr (.mk "olink" tx tl ats cs)
                      "targetdoc"))).map (fun p => removeSpaces (pyLower (pyStrip p)))) ++ "/index>`"] ++ optTail tl2, st))
           else .ok (optTail tl, st)) := rfl
      cases hb : (truthy tx && (Node.attr (.mk "olink" tx tl ats cs) "targetdoc").isSome)
      · refine ⟨(optTail tl, st), ?_, fun h => absurd ((show itemOk (Node.mk "olink" tx tl ats cs) = false from rfl) ▸ h) (by decide)⟩
        rw [e, hb, if_neg (by decide)]
      · rcases hfp : fixPair tx tl with ⟨tx2, tl2⟩
        refine ⟨([":doc:`" ++ strVal tx2 ++ " </" ++
          String.intercalate "/" (match (splitChar ',' (strVal (Node.attr (.mk "olink" tx tl ats cs) "targetdoc"))).map
                  (fun p => removeSpaces (pyLower (pyStrip p))) with
                | [] => [ctx.defaultBlock, ctx.defaultPart]
                | t0 :: _ =>
                  if !pyStartsWith t0 "block" then
                    if !pyStartsWith t0 "part" then
                      ctx.defaultBlock :: ctx.defaultPart ::
                        (splitChar ',' (strVal (Node.attr (.mk "olink" tx tl ats cs)
                          "targetdoc"))).map (fun p => removeSpaces (pyLower (pyStrip p)))
                    else
                      ctx.defaultBlock ::
                        (splitChar ',' (strVal (Node.attr (.mk "olink" tx tl ats cs)
                          "targetdoc"))).map (fun p => removeSpaces (pyLower (pyStrip p)))
                  else
                    (splitChar ',' (strVal (Node.attr (.mk "olink" tx tl ats cs)
                      "targetdoc"))).map (fun p => removeSpaces (pyLower (pyStrip p)))) ++ "/index>`"] ++ optTail tl2, st), ?_,
          fun h => absurd ((show itemOk (Node.mk "olink" tx tl ats cs) = false from rfl) ▸ h) (by decide)⟩
        rw [e, hb, if_pos rfl]
        show (match fixPair tx tl with
              | (tx2, tl2) =>
                (.ok ([":doc:`" ++ strVal tx2 ++ " </" ++
                  String.intercalate "/" (match (splitChar ',' (strVal (Node.attr (.mk "olink" tx tl ats cs) "targetdoc"))).map
                  (fun p => removeSpaces (pyLower (pyStrip p))) with
                | [] => [ctx.defaultBlock, ctx.defaultPart]
                | t0 :: _ =>
                  if !pyStartsWith t0 "block" then
                    if !pyStartsWith t0 "part" then
                      ctx.defaultBlock :: ctx.defaultPart ::
                        (splitChar ',' (strVal (Node.attr (.mk "olink" tx tl ats cs)
                          "targetdoc"))).map (fun p => removeSpaces (pyLower (pyStrip p)))
                    else
                      ctx.defaultBlock ::
                        (splitChar ',' (strVal (Node.attr (.mk "olink" tx tl ats cs)
                          "targetdoc"))).map (fun p => removeSpaces (pyLower (pyStrip p)))
                  else
                    (splitChar ',' (strVal (Node.attr (.mk "olink" tx tl ats cs)
                      "targetdoc"))).map (fun p => removeSpaces (pyLower (pyStrip p)))) ++ "/index>`"] ++ optTail tl2, st) :
                  Except String (List String × St))) = _
        rw [hfp]
    by_cases h29 : (tg == "InlineFigure") = true
    ·
      rw [beq_iff_eq] at h29
      subst h29
      have e : processNode ctx (fuel+1) ptag (.mk "InlineFigure" tx tl ats cs) ind st =
          (match (Node.mk "InlineFigure" tx tl ats cs).imageSrcs with
           | [] => .ok (optTail tl, st)
           | src :: _ =>
             match (Node.mk "InlineFigure" tx tl ats cs).childTagged "Image" with
             | [] => .error "IndexError: list index out of range"
             | img :: _ =>
               Except.bind (processNode ctx fuel "InlineFigure" img "" st) (fun d =>
                 match d with
                 | (tmp0, stA) =>
                   .ok (["|" ++ afterLastBackslash src ++ "|"] ++ optTail tl,
                     if !tmp0.isEmpty then
                       { stA with defer := stA.defer ++
                         ((".. |" ++ afterLastBackslash src ++ "| rst-class:: inline-block") ::
                           (("" :: tmp0).map (fun l => "    " ++ l))) }
                     else stA))) := rfl
      rcases hsrcs : (Node.mk "InlineFigure" tx tl ats cs).imageSrcs with _ | ⟨src, srest⟩
      · refine ⟨(optTail tl, st), ?_, fun h => absurd ((show itemOk (Node.mk "InlineFigure" tx tl ats cs) = false from rfl) ▸ h) (by decide)⟩
        rw [e, hsrcs]
      · rcases himg : (Node.mk "InlineFigure" tx tl ats cs).childTagged "Image" with
          _ | ⟨img, imgs⟩
        · have hemp : (Node.mk "InlineFigure" tx tl ats cs).imageSrcs = [] := by
            rw [Node.imageSrcs, himg]
            rfl
          rw [hsrcs] at hemp
          exact absurd hemp (by simp)
        · have himgm : img ∈ cs :=
            List.mem_of_mem_filter (himg.symm ▸ List.mem_cons_self img imgs)
          obtain ⟨⟨tmp0, stA⟩, himgok, -⟩ := HC img himgm "InlineFigure" "" st
          refine ⟨(["|" ++ afterLastBackslash src ++ "|"] ++ optTail tl,
            if !tmp0.isEmpty then
              { stA with defer := stA.defer ++
                ((".. |" ++ afterLastBackslash src ++ "| rst-class:: inline-block") ::
                  (("" :: tmp0).map (fun l => "    " ++ l))) }
            else stA), ?_, fun h => absurd ((show itemOk (Node.mk "InlineFigure" tx tl ats cs) = false from rfl) ▸ h) (by decide)⟩
          rw [e, hsrcs, himg]
          show Except.bind (processNode ctx fuel "InlineFigure" img "" st) _ = _
          rw [himgok]
          rfl
    by_cases h30 : (tg == "GlossaryTerm") = true
    ·
      rw [beq_iff_eq] at h30
      subst h30
      have e : processNode ctx (fuel+1) ptag (.mk "GlossaryTerm" tx tl ats cs) ind st =
          (if truthy tx = true then
            (match fixPair tx tl with
             | (tx2, tl2) => .ok ([":term:`" ++ strVal tx2 ++ "`"] ++ optTail tl2, st))
           else .ok (optTail tl, st)) := rfl
      cases htr : truthy tx
      · refine ⟨(optTail tl, st), ?_, fun h => absurd ((show itemOk (Node.mk "GlossaryTerm" tx tl ats cs) = false from rfl) ▸ h) (by decide)⟩
        rw [e, htr, if_neg (by decide)]
      · rcases hfp : fixPair tx tl with ⟨tx2, tl2⟩
        refine ⟨([":term:`" ++ strVal tx2 ++ "`"] ++ optTail tl2, st), ?_, fun h => absurd ((show itemOk (Node.mk "GlossaryTerm" tx tl ats cs) = false from rfl) ▸ h) (by decide)⟩
        rw [e, htr, if_pos rfl]
        show (match fixPair tx tl with
              | (tx2, tl2) =>
                (.ok ([":term:`" ++ strVal tx2 ++ "`"] ++ optTail tl2, st) :
                  Except String (List String × St))) = _
        rw [hfp]
    by_cases h31 : (tg == "br") = true
    ·
      rw [beq_iff_eq] at h31
      subst h31
      exact ⟨((if truthy tl then [ind ++ strVal tl] else []), st), rfl, fun h => absurd ((show itemOk (Node.mk "br" tx tl ats cs) = false from rfl) ▸ h) (by decide)⟩
    by_cases h32 : (tg == "font") = true
    ·
      rw [beq_iff_eq] at h32
      subst h32
      exact ⟨((if truthy tx then [ind ++ strVal tx] else []), st), rfl, fun h => absurd ((show itemOk (Node.mk "font" tx tl ats cs) = false from rfl) ▸ h) (by decide)⟩
    by_cases h33 : (tg == "sup") = true
    ·
      rw [beq_iff_eq] at h33
      subst h33
      have e : processNode ctx (fuel+1) ptag (.mk "sup" tx tl ats cs) ind st =
          (match fixPair tx tl with
           | (tx2, tl2) =>
             .ok ((if truthy tx2 then [":superscript:`" ++ strVal tx2 ++ "`"] else []) ++
               optTail tl2, st)) := rfl
      rcases hfp : fixPair tx tl with ⟨tx2, tl2⟩
      refine ⟨((if truthy tx2 then [":superscript:`" ++ strVal tx2 ++ "`"] else []) ++
        optTail tl2, st), ?_, fun h => absurd ((show itemOk (Node.mk "sup" tx tl ats cs) = false from rfl) ▸ h) (by decide)⟩
      rw [e, hfp]
    by_cases h34 : (tg == "Section") = true
    ·
      rw [beq_iff_eq] at h34
      subst h34
      exact ⟨([], st), rfl, fun h => absurd ((show itemOk (Node.mk "Section" tx tl ats cs) = false from rfl) ▸ h) (by decide)⟩
    have e : processNode ctx (fuel+1) ptag (.mk tg tx tl ats cs) ind st =
        .ok ([], { st with diags := st.diags ++ [tg] }) := by
      simp only [processNode, Node.tag]
      rw [if_neg h01, if_neg h02, if_neg h03, if_neg h04, if_neg h05, if_neg h06, if_neg h07, if_neg h08, if_neg h09, if_neg h10, if_neg h11, if_neg h12, if_neg h13, if_neg h14, if_neg h15, if_neg h16, if_neg h17, if_neg h18, if_neg h19, if_neg h20, if_neg h21, if_neg h22, if_neg h23, if_neg h24, if_neg h25, if_neg h26, if_neg h27, if_neg h28, if_neg h29, if_neg h30, if_neg h31, if_neg h32, if_neg h33, if_neg h34]
    refine ⟨_, e, ?_⟩
    intro hio
    exfalso
    simp only [itemOk, Node.tag] at hio
    rw [if_neg h17] at hio
    have hio2 : neTag tg = true := hio
    rw [neTag] at hio2
    simp only [Bool.or_eq_true] at hio2
    rcases hio2 with (((((((((h | h) | h) | h) | h) | h) | h) | h) | h) | h)
    exacts [absurd (by simp [h]) h01, absurd (by simp [h]) h01, absurd (by simp [h]) h02,
      absurd (by simp [h]) h02, absurd (by simp [h]) h04, absurd (by simp [h]) h08,
      absurd (by simp [h]) h09, absurd (by simp [h]) h12, absurd (by simp [h]) h14,
      absurd (by simp [h]) h24]

end OuXmlToRst
namespace OuXmlToRst

/-- C3 (amended): on any input tree that is hereditarily well formed — every
Title/Heading has text, every Box has a heading or a guaranteed-non-empty
non-heading child, every Figure caption is childless, every Equation has a
MathML child, and every list has a guaranteed-non-empty item — the converter
returns a line sequence and never raises, for any parent tag, indent, state
and fuel bound covering the tree depth. -/
theorem c3_amended_safety (ctx : Ctx) (fuel : Nat) (n : Node) (ptag ind : String)
    (st : St) (h : wfTree fuel n = true) :
    ∃ r : List String × St, processNode ctx fuel ptag n ind st = .ok r := by
  obtain ⟨r, hr, -⟩ := processNode_wf_ok ctx fuel n ptag ind st h
  exact ⟨r, hr⟩

/-- Witness for the amended C3 theorem: a Box whose only child is a
non-empty Paragraph is well formed at fuel 2 and converts successfully. -/
theorem c3_witness :
    wfTree 2 (Node.mk "Box" none none []
      [Node.mk "Paragraph" (some "Hi") none [] []]) = true ∧
    ∃ r : List String × St,
      processNode ctx0 2 "Session" (Node.mk "Box" none none []
        [Node.mk "Paragraph" (some "Hi") none [] []]) "" st0 = .ok r :=
  ⟨by decide, c3_amended_safety ctx0 2 (Node.mk "Box" none none []
    [Node.mk "Paragraph" (some "Hi") none [] []]) "Session" "" st0 (by decide)⟩

end OuXmlToRst
